import Mathlib

/-!
# Block accounting and fallback arena of `src/malloc.cpp`

A shallow embedding of `MallocHelper` (the process-wide allocator shim).

* `size_t` and `void *` are 64-bit: values are `Nat` below `2 ^ 64`, arithmetic
  wraps with an explicit `% 2 ^ 64`; a signed pointer difference is an `Int`.
* Memory is one flat byte-addressed map `Mem`; `bootHeap` is the address of the
  arena array inside it, so the arena contents are the bytes of `mem` in
  `[bootHeap, bootHeap + BootHeapSize)`. A `size_t` field is stored in 8 bytes,
  least significant first.
* A function reference is an `Option`: `none` is the `NULL` reference. A present
  reference is the behaviour of the real primitive on the memory; the pointer it
  returns is taken in 64 bits.
* Every call of a real primitive is appended to `calls`.
* `MallocHelper` keeps the members of the object as record fields; `Obj` keeps them in
  memory, below `bootHeap`, where a store of the shim can reach them.
* `MALLOC_DEBUG` is `0`: the `fprintf` and `malloc_trap` lines are not compiled.
-/

namespace MallocShim

/-- Largest `size_t`, the value of `~(size_t)0`. -/
def SIZE_MAX : Nat := 2 ^ 64 - 1

/-- The null pointer. -/
def NULL : Nat := 0

/-- Value of `#define HEADER_MAGIC ((size_t)0x474F4F4D204D454EuLL)`. -/
def HEADER_MAGIC : Nat := 0x474F4F4D204D454E

/-- Value of `enum { BootHeapSize = 0x1000 }`. -/
def BootHeapSize : Nat := 0x1000

/-- Size of `struct BlockHeader { size_t magic; size_t size; }`. -/
def sizeofBlockHeader : Nat := 16

/-- Offset of the field `magic` in `BlockHeader`. -/
def offMagic : Nat := 0

/-- Offset of the field `size` in `BlockHeader`. -/
def offSize : Nat := 8

/-- Byte-addressed memory: the byte stored at each address. -/
abbrev Mem := Nat → Nat

/-- Pointer plus a byte count, in 64 bits. -/
def ptrAdd (p n : Nat) : Nat := (p + n) % 2 ^ 64

/-- Pointer minus a byte count, in 64 bits. -/
def ptrSub (p n : Nat) : Nat := (p + (2 ^ 64 - n % 2 ^ 64)) % 2 ^ 64

/-- Signed difference `a - b` of two `char *`, as a `ptrdiff_t`. -/
def ptrDiff (a b : Nat) : Int :=
  let d : Nat := (a + (2 ^ 64 - b % 2 ^ 64)) % 2 ^ 64
  if d < 2 ^ 63 then (d : Int) else (d : Int) - 2 ^ 64

/-- Conversion of a signed value to `size_t`. -/
def toSizeT (i : Int) : Nat := (i % 2 ^ 64).toNat

/-- Store of a `size_t` at address `a`: eight bytes, least significant first. -/
def writeWord (m : Mem) (a v : Nat) : Mem := fun x =>
  let k := (x + (2 ^ 64 - a % 2 ^ 64)) % 2 ^ 64
  if k < 8 then (v / 256 ^ k) % 256 else m x

/-- Load of one byte. -/
def readByte (m : Mem) (a : Nat) : Nat := m (a % 2 ^ 64) % 256

/-- Load of a `size_t` from address `a`: eight bytes, least significant first. -/
def readWord (m : Mem) (a : Nat) : Nat :=
  readByte m (ptrAdd a 0) + 256 ^ 1 * readByte m (ptrAdd a 1)
    + 256 ^ 2 * readByte m (ptrAdd a 2) + 256 ^ 3 * readByte m (ptrAdd a 3)
    + 256 ^ 4 * readByte m (ptrAdd a 4) + 256 ^ 5 * readByte m (ptrAdd a 5)
    + 256 ^ 6 * readByte m (ptrAdd a 6) + 256 ^ 7 * readByte m (ptrAdd a 7)

/-- The library routine `memcpy(dst, src, n)`; the bytes are taken from the memory before the copy. -/
def memcpy (m : Mem) (dst src n : Nat) : Mem := fun x =>
  let k := (x + (2 ^ 64 - dst % 2 ^ 64)) % 2 ^ 64
  if k < n then m (ptrAdd src k) else m x

/-- One call of a real primitive, with its arguments and (but for `free`) its result. -/
inductive RealCall where
  | calloc (count size result : Nat)
  | free (data : Nat)
  | malloc (bytes result : Nat)
  | realloc (data bytes result : Nat)
  deriving DecidableEq, Repr

/-- Behaviour of a `calloc_func`: memory, count, size to result and memory. -/
abbrev calloc_func := Mem → Nat → Nat → Nat × Mem

/-- Behaviour of a `free_func`: memory, data to memory. -/
abbrev free_func := Mem → Nat → Mem

/-- Behaviour of a `malloc_func`: memory, bytes to result and memory. -/
abbrev malloc_func := Mem → Nat → Nat × Mem

/-- Behaviour of a `realloc_func`: memory, data, bytes to result and memory. -/
abbrev realloc_func := Mem → Nat → Nat → Nat × Mem

/-- The fields of `class MallocHelper`, the memory that holds `bootHeap`, and the
calls made to the real primitives so far. -/
structure MallocHelper where
  bootCursor : Nat
  handle : Nat
  realCalloc : Option calloc_func
  realFree : Option free_func
  realMalloc : Option malloc_func
  realRealloc : Option realloc_func
  bootHeap : Nat
  mem : Mem
  calls : List RealCall

/-- `MallocHelper::adjustSize`: `sizeof(BlockHeader) + bytes` in `size_t`. -/
def adjustSize (bytes : Nat) : Nat := (sizeofBlockHeader + bytes) % 2 ^ 64

/-- `MallocHelper::recordSize`: null stays null; otherwise the header is written at
`data` and `header + 1` is returned. -/
def recordSize (s : MallocHelper) (data bytes : Nat) : Nat × MallocHelper :=
  if data = NULL then
    (NULL, s)
  else
    let header := data
    let m1 := writeWord s.mem (ptrAdd header offMagic) HEADER_MAGIC
    let m2 := writeWord m1 (ptrAdd header offSize) bytes
    (ptrAdd header sizeofBlockHeader, { s with mem := m2 })

/-- `MallocHelper::preRelease`: null stays null; otherwise `header - 1`. -/
def preRelease (data : Nat) : Nat :=
  if data = NULL then NULL else ptrSub data sizeofBlockHeader

/-- `MallocHelper::isInBootHeap`: `(test >= bootHeap) && ((test - bootHeap) < BootHeapSize)`,
the second comparison being one of signed values. -/
def isInBootHeap (s : MallocHelper) (data : Nat) : Bool :=
  let test := data
  decide (test ≥ s.bootHeap) && decide (ptrDiff test s.bootHeap < (BootHeapSize : Int))

/-- `MallocHelper::callocImpl`. -/
def callocImpl (s : MallocHelper) (count size : Nat) : Nat × MallocHelper :=
  if 0 ≠ count ∧ 0 ≠ size ∧ count > SIZE_MAX / size then
    (NULL, s)
  else
    let bytes := (count * size) % 2 ^ 64
    let adjustedBytes := adjustSize bytes
    match s.realCalloc with
    | none => (NULL, s)
    | some allocator =>
      let r := allocator s.mem adjustedBytes 1
      let result := r.1 % 2 ^ 64
      recordSize { s with mem := r.2, calls := s.calls ++ [RealCall.calloc adjustedBytes 1 result] }
        result bytes

/-- `MallocHelper::mallocImpl`. -/
def mallocImpl (s : MallocHelper) (bytes : Nat) : Nat × MallocHelper :=
  let adjustedBytes := adjustSize bytes
  match s.realMalloc with
  | some allocator =>
    let r := allocator s.mem adjustedBytes
    let result := r.1 % 2 ^ 64
    recordSize { s with mem := r.2, calls := s.calls ++ [RealCall.malloc adjustedBytes result] }
      result bytes
  | none =>
    let available := toSizeT ((BootHeapSize : Int) - ptrDiff s.bootCursor s.bootHeap)
    if available < adjustedBytes then
      (NULL, s)
    else
      let result := s.bootCursor
      recordSize { s with bootCursor := ptrAdd s.bootCursor adjustedBytes } result bytes

/-- `MallocHelper::reallocImpl`. -/
def reallocImpl (s : MallocHelper) (data bytes : Nat) : Nat × MallocHelper :=
  if data = NULL then
    mallocImpl s bytes
  else
    match s.realRealloc with
    | none => (NULL, s)
    | some reallocator =>
      let adjustedData := preRelease data
      let adjustedBytes := adjustSize bytes
      if isInBootHeap s data then
        let header := adjustedData
        let r := mallocImpl s bytes
        let result := r.1
        if result ≠ NULL then
          let oldSize := readWord r.2.mem (ptrAdd header offSize)
          let m := memcpy r.2.mem result data (if bytes < oldSize then bytes else oldSize)
          recordSize { r.2 with mem := m } result bytes
        else
          recordSize r.2 result bytes
      else
        let r := reallocator s.mem adjustedData adjustedBytes
        let result := r.1 % 2 ^ 64
        recordSize
          { s with mem := r.2,
                   calls := s.calls ++ [RealCall.realloc adjustedData adjustedBytes result] }
          result bytes

/-- `MallocHelper::freeImpl`. -/
def freeImpl (s : MallocHelper) (data : Nat) : MallocHelper :=
  if data = NULL then
    s
  else if isInBootHeap s data then
    s
  else
    match s.realFree with
    | some releaser =>
      let adjustedData := preRelease data
      { s with mem := releaser s.mem adjustedData, calls := s.calls ++ [RealCall.free adjustedData] }
    | none => s

/-- The `magic` field of the header below the caller-facing pointer `p`. -/
def headerMagic (m : Mem) (p : Nat) : Nat :=
  readWord m (ptrAdd (ptrSub p sizeofBlockHeader) offMagic)

/-- The `size` field of the header below the caller-facing pointer `p`. -/
def headerSize (m : Mem) (p : Nat) : Nat :=
  readWord m (ptrAdd (ptrSub p sizeofBlockHeader) offSize)

/-- States the shim can be in: the arena array, and one header past its end, lie in the
64-bit address space above the null address, and the cursor points into the array or just
past its end. -/
def Valid (s : MallocHelper) : Prop :=
  0 < s.bootHeap ∧ s.bootHeap + BootHeapSize + sizeofBlockHeader < 2 ^ 64 ∧
    s.bootHeap ≤ s.bootCursor ∧ s.bootCursor ≤ s.bootHeap + BootHeapSize

instance (s : MallocHelper) : Decidable (Valid s) :=
  inferInstanceAs (Decidable (0 < s.bootHeap ∧
    s.bootHeap + BootHeapSize + sizeofBlockHeader < 2 ^ 64 ∧
    s.bootHeap ≤ s.bootCursor ∧ s.bootCursor ≤ s.bootHeap + BootHeapSize))

/-- Memory holding the byte `0` everywhere. -/
def zeroMem : Mem := fun _ => 0

/-- The state right after a construction whose resolution failed: empty arena at address
`0x10000`, no function reference. -/
def failedState : MallocHelper :=
  { bootCursor := 0x10000, handle := NULL, realCalloc := none, realFree := none,
    realMalloc := none, realRealloc := none, bootHeap := 0x10000, mem := zeroMem, calls := [] }

/-- A real `malloc` that always hands out the block at `0x200000` and writes nothing. -/
def fixedMalloc : malloc_func := fun m _ => (0x200000, m)

/-- A real `calloc` that hands out the block at `0x300000`, its `count * size` bytes zeroed. -/
def fixedCalloc : calloc_func := fun m count size =>
  (0x300000, fun x => if 0x300000 ≤ x ∧ x < 0x300000 + count * size then 0 else m x)

/-- A real `realloc` that moves the block to `0x400000`, copying `bytes` bytes of it. -/
def movingRealloc : realloc_func := fun m data bytes =>
  (0x400000, fun x => if 0x400000 ≤ x ∧ x < 0x400000 + bytes then m (data + (x - 0x400000)) else m x)

/-- A real `free` that writes nothing. -/
def quietFree : free_func := fun m _ => m

/-- Memory holding at each address the low byte of the address. -/
def addrMem : Mem := fun x => x % 256

/-- A resolved state: before resolution one block of 32 bytes was taken from the arena
(caller-facing pointer `0x10010`), its payload then filled with the bytes `0x10 .. 0x2f`;
all four references are present. -/
def resolvedState : MallocHelper :=
  { bootCursor := 0x10030, handle := 1, realCalloc := some fixedCalloc,
    realFree := some quietFree, realMalloc := some fixedMalloc,
    realRealloc := some movingRealloc, bootHeap := 0x10000,
    mem := writeWord (writeWord addrMem 0x10000 HEADER_MAGIC) 0x10008 32, calls := [] }

/-- The resolved state after `mallocImpl 64` returned `0x200010` through the real
`malloc` and the caller filled the 64 payload bytes with `0xAB`. -/
def heapBlockState : MallocHelper :=
  { (mallocImpl resolvedState 64).2 with
    mem := fun x =>
      if 0x200010 ≤ x ∧ x < 0x200050 then 0xAB else (mallocImpl resolvedState 64).2.mem x }

/-- One call of an entry point `calloc`, `free`, `malloc`, `realloc` on the instance. -/
inductive Op where
  | calloc (count size : Nat)
  | free (data : Nat)
  | malloc (bytes : Nat)
  | realloc (data bytes : Nat)
  deriving DecidableEq, Repr

/-- The state after one entry-point call. -/
def step (s : MallocHelper) : Op → MallocHelper
  | Op.calloc count size => (callocImpl s count size).2
  | Op.free data => freeImpl s data
  | Op.malloc bytes => (mallocImpl s bytes).2
  | Op.realloc data bytes => (reallocImpl s data bytes).2

/-- The pointer an entry-point call returns (`free` returns nothing: null here). -/
def returned (s : MallocHelper) : Op → Nat
  | Op.calloc count size => (callocImpl s count size).1
  | Op.free _ => NULL
  | Op.malloc bytes => (mallocImpl s bytes).1
  | Op.realloc data bytes => (reallocImpl s data bytes).1

/-- The state after a sequence of entry-point calls. -/
def run (s : MallocHelper) (ops : List Op) : MallocHelper := ops.foldl step s

/-- What the dynamic loader does for the constructor: the handle `dlopen` returns (null on
failure), the entry-point calls `dlopen` itself makes while the references are still
absent ("a small amount of space is required by our call to dlopen()"), and what each of
the four `dlsym` lookups returns. -/
structure Loader where
  opened : Nat
  early : List Op
  calloc : Option calloc_func
  free : Option free_func
  malloc : Option malloc_func
  realloc : Option realloc_func

/-- A call of the dynamic loader made by the constructor. -/
inductive DlCall where
  | dlopen
  | dlsymCalloc
  | dlsymFree
  | dlsymMalloc
  | dlsymRealloc
  | dlclose (handle : Nat)
  deriving DecidableEq, Repr

/-- The label `fail:` of the constructor: the handle is closed, everything is reset. -/
def constructFail (s : MallocHelper) (handle : Nat) (log : List DlCall) :
    MallocHelper × List DlCall :=
  ({ s with handle := NULL, realCalloc := none, realFree := none, realMalloc := none,
            realRealloc := none }, log ++ [DlCall.dlclose handle])

/-- The member initialisers of the constructor: `bootCursor(bootHeap)`, the handle and
the four references null. -/
def initState (bootHeap : Nat) (mem : Mem) : MallocHelper :=
  { bootCursor := bootHeap, handle := NULL, realCalloc := none, realFree := none,
    realMalloc := none, realRealloc := none, bootHeap := bootHeap, mem := mem, calls := [] }

/-- `MallocHelper::MallocHelper`, for an instance whose `bootHeap` array is at address
`bootHeap` in the memory `mem`; the result is the state and the loader calls made. -/
def construct (bootHeap : Nat) (mem : Mem) (ld : Loader) : MallocHelper × List DlCall :=
  let s0 : MallocHelper := initState bootHeap mem
  let s1 := run s0 ld.early
  let handle := ld.opened
  if handle = NULL then
    ({ s1 with handle := NULL }, [DlCall.dlopen])
  else
    let s2 := { s1 with handle := handle }
    match ld.calloc with
    | none => constructFail s2 handle [DlCall.dlopen, DlCall.dlsymCalloc]
    | some c =>
      let s3 := { s2 with realCalloc := some c }
      match ld.free with
      | none => constructFail s3 handle [DlCall.dlopen, DlCall.dlsymCalloc, DlCall.dlsymFree]
      | some f =>
        let s4 := { s3 with realFree := some f }
        match ld.malloc with
        | none =>
          constructFail s4 handle
            [DlCall.dlopen, DlCall.dlsymCalloc, DlCall.dlsymFree, DlCall.dlsymMalloc]
        | some m =>
          let s5 := { s4 with realMalloc := some m }
          match ld.realloc with
          | none =>
            constructFail s5 handle
              [DlCall.dlopen, DlCall.dlsymCalloc, DlCall.dlsymFree, DlCall.dlsymMalloc,
                DlCall.dlsymRealloc]
          | some r =>
            ({ s5 with realRealloc := some r },
              [DlCall.dlopen, DlCall.dlsymCalloc, DlCall.dlsymFree, DlCall.dlsymMalloc,
                DlCall.dlsymRealloc])

/-- The handle and all four function references are present. -/
def allPresent (s : MallocHelper) : Prop :=
  s.handle ≠ NULL ∧ s.realCalloc.isSome = true ∧ s.realFree.isSome = true ∧
    s.realMalloc.isSome = true ∧ s.realRealloc.isSome = true

/-- The handle and all four function references are absent. -/
def allAbsent (s : MallocHelper) : Prop :=
  s.handle = NULL ∧ s.realCalloc.isNone = true ∧ s.realFree.isNone = true ∧
    s.realMalloc.isNone = true ∧ s.realRealloc.isNone = true

/-- The open and all four lookups succeed. -/
def allFound (ld : Loader) : Prop :=
  ld.opened ≠ NULL ∧ ld.calloc.isSome = true ∧ ld.free.isSome = true ∧
    ld.malloc.isSome = true ∧ ld.realloc.isSome = true

instance (s : MallocHelper) : Decidable (allPresent s) :=
  inferInstanceAs (Decidable (s.handle ≠ NULL ∧ s.realCalloc.isSome = true ∧
    s.realFree.isSome = true ∧ s.realMalloc.isSome = true ∧ s.realRealloc.isSome = true))

instance (s : MallocHelper) : Decidable (allAbsent s) :=
  inferInstanceAs (Decidable (s.handle = NULL ∧ s.realCalloc.isNone = true ∧
    s.realFree.isNone = true ∧ s.realMalloc.isNone = true ∧ s.realRealloc.isNone = true))

instance (ld : Loader) : Decidable (allFound ld) :=
  inferInstanceAs (Decidable (ld.opened ≠ NULL ∧ ld.calloc.isSome = true ∧
    ld.free.isSome = true ∧ ld.malloc.isSome = true ∧ ld.realloc.isSome = true))

/-- How many times the log closes a handle. -/
def closeCount (log : List DlCall) : Nat :=
  (log.filter (fun c => match c with
    | DlCall.dlclose _ => true
    | _ => false)).length

/-- A loader that opens the library (handle 7) and finds all four symbols; `dlopen`
makes no entry-point call. -/
def goodLoader : Loader :=
  { opened := 7, early := [], calloc := some fixedCalloc, free := some quietFree,
    malloc := some fixedMalloc, realloc := some movingRealloc }

/-- A loader that opens the library and finds every symbol but `realloc`. -/
def noReallocLoader : Loader :=
  { opened := 7, early := [], calloc := some fixedCalloc, free := some quietFree,
    malloc := some fixedMalloc, realloc := none }

/-- A raw block address: not null, and the header at it ends below the top of the
address space. -/
def IsRawBlock (r : Nat) : Prop := r ≠ NULL ∧ r + sizeofBlockHeader < 2 ^ 64

instance (r : Nat) : Decidable (IsRawBlock r) :=
  inferInstanceAs (Decidable (r ≠ NULL ∧ r + sizeofBlockHeader < 2 ^ 64))

/-- A caller-facing pointer: one header above a raw block address. -/
def IsCallerFacing (p : Nat) : Prop := ∃ r, IsRawBlock r ∧ p = r + sizeofBlockHeader

/-- From `s` to `t` the arena stays where it is, the cursor does not move back, and `t`
is valid. -/
def Grows (s t : MallocHelper) : Prop :=
  Valid t ∧ t.bootHeap = s.bootHeap ∧ s.bootCursor ≤ t.bootCursor

/-- No function reference is present. -/
def Unresolved (s : MallocHelper) : Prop :=
  s.realCalloc = none ∧ s.realFree = none ∧ s.realMalloc = none ∧ s.realRealloc = none

/-- A loader that finds everything, and whose `dlopen` first takes 4064 and then 0 bytes
through `malloc`. -/
def arenaEndLoader : Loader :=
  { opened := 7, early := [Op.malloc 4064, Op.malloc 0], calloc := some fixedCalloc,
    free := some quietFree, malloc := some fixedMalloc, realloc := some movingRealloc }

/-- The raw block addresses the real primitives have returned in a list of calls. -/
def produced : List RealCall → List Nat
  | [] => []
  | RealCall.calloc _ _ result :: rest => result :: produced rest
  | RealCall.free _ :: rest => produced rest
  | RealCall.malloc _ result :: rest => result :: produced rest
  | RealCall.realloc _ _ result :: rest => result :: produced rest

/-- The block of `size` bytes at `raw` lies in the address space and does not meet the
arena of `s`. -/
def Outside (s : MallocHelper) (raw size : Nat) : Prop :=
  raw + size ≤ 2 ^ 64 ∧ (raw + size ≤ s.bootHeap ∨ s.bootHeap + BootHeapSize ≤ raw)

/-- The memory `m` holds in the arena of `s` the bytes the memory of `s` holds. -/
def ArenaKept (s : MallocHelper) (m : Mem) : Prop :=
  ∀ x, s.bootHeap ≤ x → x < s.bootHeap + BootHeapSize → m x = s.mem x

/-- The state `t` has the handle, the four references and the arena address of `s`. -/
def SameRefs (s t : MallocHelper) : Prop :=
  t.handle = s.handle ∧ t.realCalloc = s.realCalloc ∧ t.realFree = s.realFree ∧
    t.realMalloc = s.realMalloc ∧ t.realRealloc = s.realRealloc ∧ t.bootHeap = s.bootHeap

/-! ## The instance in memory

`MallocHelper` above keeps `bootCursor`, `handle` and the four references as record fields
next to `mem`. In the class (src 62-72) they are the six 8-byte members that precede
`bootHeap`: the object occupies `[self, self + 48 + BootHeapSize)` and `bootHeap` is at
`self + 48`. The record is exact as long as no store reaches `[self, self + 48)`. The
definitions of `Obj` keep the members in `mem`, so that a store of the shim below
`bootHeap` changes them: a member is loaded where the source reads it and stored where the
source assigns it. A reference is the address of a function; a call through it runs the
primitive of the C library that stands at that address, and has no defined result
(`none`) when none does. -/

namespace Obj

/-- Offset of the member `bootCursor` in `class MallocHelper`. -/
def offBootCursor : Nat := 0

/-- Offset of the member `handle`. -/
def offHandle : Nat := 8

/-- Offset of the member `realCalloc`. -/
def offRealCalloc : Nat := 16

/-- Offset of the member `realFree`. -/
def offRealFree : Nat := 24

/-- Offset of the member `realMalloc`. -/
def offRealMalloc : Nat := 32

/-- Offset of the member `realRealloc`. -/
def offRealRealloc : Nat := 40

/-- Offset of the member `bootHeap`. -/
def offBootHeap : Nat := 48

/-- The C library: the address of each real primitive and its behaviour. -/
structure Libc where
  callocAddr : Nat
  freeAddr : Nat
  mallocAddr : Nat
  reallocAddr : Nat
  calloc : calloc_func
  free : free_func
  malloc : malloc_func
  realloc : realloc_func

/-- The process: the address `self` of `MallocHelper::instance`, the memory that holds it,
the C library, and the calls made to the real primitives so far. -/
structure Process where
  self : Nat
  mem : Mem
  libc : Libc
  calls : List RealCall

/-- The address of the array `bootHeap`. -/
def bootHeap (st : Process) : Nat := ptrAdd st.self offBootHeap

/-- Load of the member `bootCursor`. -/
def bootCursor (st : Process) : Nat := readWord st.mem (ptrAdd st.self offBootCursor)

/-- Load of the member `handle`. -/
def handle (st : Process) : Nat := readWord st.mem (ptrAdd st.self offHandle)

/-- Load of the member `realCalloc`. -/
def realCalloc (st : Process) : Nat := readWord st.mem (ptrAdd st.self offRealCalloc)

/-- Load of the member `realFree`. -/
def realFree (st : Process) : Nat := readWord st.mem (ptrAdd st.self offRealFree)

/-- Load of the member `realMalloc`. -/
def realMalloc (st : Process) : Nat := readWord st.mem (ptrAdd st.self offRealMalloc)

/-- Load of the member `realRealloc`. -/
def realRealloc (st : Process) : Nat := readWord st.mem (ptrAdd st.self offRealRealloc)

/-- Store to the member `bootCursor`. -/
def setBootCursor (st : Process) (v : Nat) : Process :=
  { st with mem := writeWord st.mem (ptrAdd st.self offBootCursor) v }

/-- `MallocHelper::recordSize`, on the memory of the process. -/
def recordSize (st : Process) (data bytes : Nat) : Nat × Process :=
  if data = NULL then
    (NULL, st)
  else
    let header := data
    let m1 := writeWord st.mem (ptrAdd header offMagic) HEADER_MAGIC
    let m2 := writeWord m1 (ptrAdd header offSize) bytes
    (ptrAdd header sizeofBlockHeader, { st with mem := m2 })

/-- `MallocHelper::isInBootHeap`. -/
def isInBootHeap (st : Process) (data : Nat) : Bool :=
  let test := data
  decide (test ≥ bootHeap st) && decide (ptrDiff test (bootHeap st) < (BootHeapSize : Int))

/-- `MallocHelper::callocImpl`. -/
def callocImpl (st : Process) (count size : Nat) : Option (Nat × Process) :=
  if 0 ≠ count ∧ 0 ≠ size ∧ count > SIZE_MAX / size then
    some (NULL, st)
  else
    let bytes := (count * size) % 2 ^ 64
    let adjustedBytes := adjustSize bytes
    let allocator := realCalloc st
    if allocator = NULL then
      some (NULL, st)
    else if allocator = st.libc.callocAddr then
      let r := st.libc.calloc st.mem adjustedBytes 1
      let result := r.1 % 2 ^ 64
      some (recordSize
        { st with mem := r.2, calls := st.calls ++ [RealCall.calloc adjustedBytes 1 result] }
        result bytes)
    else
      none

/-- `MallocHelper::mallocImpl`. -/
def mallocImpl (st : Process) (bytes : Nat) : Option (Nat × Process) :=
  let adjustedBytes := adjustSize bytes
  let allocator := realMalloc st
  if allocator ≠ NULL then
    if allocator = st.libc.mallocAddr then
      let r := st.libc.malloc st.mem adjustedBytes
      let result := r.1 % 2 ^ 64
      some (recordSize
        { st with mem := r.2, calls := st.calls ++ [RealCall.malloc adjustedBytes result] }
        result bytes)
    else
      none
  else
    let available := toSizeT ((BootHeapSize : Int) - ptrDiff (bootCursor st) (bootHeap st))
    if available < adjustedBytes then
      some (NULL, st)
    else
      let result := bootCursor st
      some (recordSize (setBootCursor st (ptrAdd (bootCursor st) adjustedBytes)) result bytes)

/-- `MallocHelper::reallocImpl`. -/
def reallocImpl (st : Process) (data bytes : Nat) : Option (Nat × Process) :=
  if data = NULL then
    mallocImpl st bytes
  else
    let reallocator := realRealloc st
    if reallocator = NULL then
      some (NULL, st)
    else
      let adjustedData := preRelease data
      let adjustedBytes := adjustSize bytes
      if isInBootHeap st data then
        let header := adjustedData
        match mallocImpl st bytes with
        | none => none
        | some r =>
          let result := r.1
          if result ≠ NULL then
            let oldSize := readWord r.2.mem (ptrAdd header offSize)
            let m := memcpy r.2.mem result data (if bytes < oldSize then bytes else oldSize)
            some (recordSize { r.2 with mem := m } result bytes)
          else
            some (recordSize r.2 result bytes)
      else if reallocator = st.libc.reallocAddr then
        let r := st.libc.realloc st.mem adjustedData adjustedBytes
        let result := r.1 % 2 ^ 64
        some (recordSize
          { st with mem := r.2,
                    calls := st.calls ++ [RealCall.realloc adjustedData adjustedBytes result] }
          result bytes)
      else
        none

/-- `MallocHelper::freeImpl`. -/
def freeImpl (st : Process) (data : Nat) : Option Process :=
  if data = NULL then
    some st
  else if isInBootHeap st data then
    some st
  else
    let releaser := realFree st
    if releaser ≠ NULL then
      if releaser = st.libc.freeAddr then
        let adjustedData := preRelease data
        some { st with mem := st.libc.free st.mem adjustedData,
                       calls := st.calls ++ [RealCall.free adjustedData] }
      else
        none
    else
      some st

/-- The process after one entry-point call (`none`: the call has no defined result). -/
def step (st : Process) : Op → Option Process
  | Op.calloc count size => (callocImpl st count size).map Prod.snd
  | Op.free data => freeImpl st data
  | Op.malloc bytes => (mallocImpl st bytes).map Prod.snd
  | Op.realloc data bytes => (reallocImpl st data bytes).map Prod.snd

/-- The process after a sequence of entry-point calls. -/
def run (st : Process) : List Op → Option Process
  | [] => some st
  | op :: rest => (step st op).bind (fun st1 => run st1 rest)

/-- A process before or without resolution: the instance (and one header past it) lies in
the address space above null, the four references are null, the cursor is within the
arena. -/
def NoneResolved (st : Process) : Prop :=
  0 < st.self ∧ st.self + offBootHeap + BootHeapSize + sizeofBlockHeader < 2 ^ 64 ∧
    realCalloc st = NULL ∧ realFree st = NULL ∧ realMalloc st = NULL ∧ realRealloc st = NULL ∧
    bootHeap st ≤ bootCursor st ∧ bootCursor st ≤ bootHeap st + BootHeapSize

instance (st : Process) : Decidable (NoneResolved st) :=
  inferInstanceAs (Decidable (0 < st.self ∧
    st.self + offBootHeap + BootHeapSize + sizeofBlockHeader < 2 ^ 64 ∧
    realCalloc st = NULL ∧ realFree st = NULL ∧ realMalloc st = NULL ∧ realRealloc st = NULL ∧
    bootHeap st ≤ bootCursor st ∧ bootCursor st ≤ bootHeap st + BootHeapSize))

/-- A C library with its primitives at four code addresses; the real `malloc` is `m`. -/
def libcWith (m : malloc_func) : Libc :=
  { callocAddr := 0x7F0000001000, freeAddr := 0x7F0000002000, mallocAddr := 0x7F0000003000,
    reallocAddr := 0x7F0000004000, calloc := fixedCalloc, free := quietFree, malloc := m,
    realloc := movingRealloc }

/-- Memory (over `addrMem`) that holds a resolved instance at `0xFFD0`, so that `bootHeap`
is `0x10000`: the six members, and in the arena the header of one block of `blockSize`
bytes, taken before resolution (caller-facing pointer `0x10010`). -/
def instanceMem (cursor blockSize : Nat) : Mem :=
  writeWord (writeWord
    (writeWord (writeWord (writeWord (writeWord (writeWord (writeWord addrMem
      0xFFD0 cursor) 0xFFD8 7) 0xFFE0 0x7F0000001000) 0xFFE8 0x7F0000002000)
      0xFFF0 0x7F0000003000) 0xFFF8 0x7F0000004000)
    0x10000 HEADER_MAGIC) 0x10008 blockSize

/-- Resolved process, one arena block of 32 bytes, cursor `0x10030`; the real `malloc`
is `fixedMalloc`, whose block at `0x200000` is far from the instance. -/
def farProcess : Process :=
  { self := 0xFFD0, mem := instanceMem 0x10030 32, libc := libcWith fixedMalloc, calls := [] }

/-- The process after a construction whose resolution failed: the instance at `0xFFD0`
with the cursor at the start of the empty arena, handle and references null. -/
def failedProcess : Process :=
  { self := 0xFFD0, mem := writeWord zeroMem 0xFFD0 0x10000, libc := libcWith fixedMalloc,
    calls := [] }

end Obj

/-! ## Memory lemmas -/

theorem writeWord_at (m : Mem) (a v k : Nat) (hk : k < 8) :
    writeWord m a v (ptrAdd a k) = (v / 256 ^ k) % 256 := by
  have h : ((a + k) % 2 ^ 64 + (2 ^ 64 - a % 2 ^ 64)) % 2 ^ 64 = k := by omega
  simp only [writeWord, ptrAdd, h, hk, if_true]

theorem writeWord_away (m : Mem) (a v x : Nat)
    (hx : 8 ≤ (x + (2 ^ 64 - a % 2 ^ 64)) % 2 ^ 64) : writeWord m a v x = m x := by
  have h : ¬ (x + (2 ^ 64 - a % 2 ^ 64)) % 2 ^ 64 < 8 := by omega
  simp only [writeWord, h, if_false]

theorem readByte_ptrAdd (m : Mem) (a k : Nat) : readByte m (ptrAdd a k) = m (ptrAdd a k) % 256 := by
  have h : ptrAdd a k % 2 ^ 64 = ptrAdd a k := by unfold ptrAdd; omega
  simp only [readByte, h]

theorem readWord_writeWord (m : Mem) (a v : Nat) :
    readWord (writeWord m a v) a = v % 2 ^ 64 := by
  simp only [readWord, readByte_ptrAdd]
  rw [writeWord_at m a v 0 (by omega), writeWord_at m a v 1 (by omega),
    writeWord_at m a v 2 (by omega), writeWord_at m a v 3 (by omega),
    writeWord_at m a v 4 (by omega), writeWord_at m a v 5 (by omega),
    writeWord_at m a v 6 (by omega), writeWord_at m a v 7 (by omega)]
  norm_num
  omega

theorem readWord_writeWord_away (m : Mem) (a b v : Nat)
    (h1 : 8 ≤ (a + (2 ^ 64 - b % 2 ^ 64)) % 2 ^ 64)
    (h2 : (a + (2 ^ 64 - b % 2 ^ 64)) % 2 ^ 64 + 8 ≤ 2 ^ 64) :
    readWord (writeWord m b v) a = readWord m a := by
  simp only [readWord, readByte_ptrAdd]
  rw [writeWord_away m b v (ptrAdd a 0) (by unfold ptrAdd; omega),
    writeWord_away m b v (ptrAdd a 1) (by unfold ptrAdd; omega),
    writeWord_away m b v (ptrAdd a 2) (by unfold ptrAdd; omega),
    writeWord_away m b v (ptrAdd a 3) (by unfold ptrAdd; omega),
    writeWord_away m b v (ptrAdd a 4) (by unfold ptrAdd; omega),
    writeWord_away m b v (ptrAdd a 5) (by unfold ptrAdd; omega),
    writeWord_away m b v (ptrAdd a 6) (by unfold ptrAdd; omega),
    writeWord_away m b v (ptrAdd a 7) (by unfold ptrAdd; omega)]

/-! ## Header stamping -/

theorem recordSize_null (s : MallocHelper) (bytes : Nat) : recordSize s NULL bytes = (NULL, s) := by
  simp [recordSize]

theorem recordSize_fst (s : MallocHelper) (data bytes : Nat) (hd : data ≠ NULL) :
    (recordSize s data bytes).1 = ptrAdd data sizeofBlockHeader := by
  simp [recordSize, hd]

theorem recordSize_mem (s : MallocHelper) (data bytes : Nat) (hd : data ≠ NULL) :
    (recordSize s data bytes).2.mem =
      writeWord (writeWord s.mem (ptrAdd data offMagic) HEADER_MAGIC) (ptrAdd data offSize) bytes := by
  simp [recordSize, hd]

theorem recordSize_calls (s : MallocHelper) (data bytes : Nat) :
    (recordSize s data bytes).2.calls = s.calls := by
  unfold recordSize
  split <;> rfl

theorem recordSize_bootCursor (s : MallocHelper) (data bytes : Nat) :
    (recordSize s data bytes).2.bootCursor = s.bootCursor := by
  unfold recordSize
  split <;> rfl

theorem recordSize_mem_away (s : MallocHelper) (data bytes x : Nat)
    (hx : 16 ≤ (x + (2 ^ 64 - data % 2 ^ 64)) % 2 ^ 64) :
    (recordSize s data bytes).2.mem x = s.mem x := by
  by_cases hd : data = NULL
  · subst hd
    rw [recordSize_null]
  · rw [recordSize_mem s data bytes hd,
      writeWord_away _ _ _ _ (by unfold ptrAdd offSize; omega),
      writeWord_away _ _ _ _ (by unfold ptrAdd offMagic; omega)]

theorem recordSize_header_of_data (s : MallocHelper) (data bytes : Nat) (hb : bytes ≤ SIZE_MAX)
    (hd : data ≠ NULL) :
    headerSize (recordSize s data bytes).2.mem (recordSize s data bytes).1 = bytes ∧
      headerMagic (recordSize s data bytes).2.mem (recordSize s data bytes).1 = HEADER_MAGIC := by
  · rw [recordSize_fst s data bytes hd, recordSize_mem s data bytes hd]
    have e1 : ptrAdd (ptrSub (ptrAdd data sizeofBlockHeader) sizeofBlockHeader) offSize
        = ptrAdd data offSize := by
      unfold ptrAdd ptrSub sizeofBlockHeader offSize; omega
    have e2 : ptrAdd (ptrSub (ptrAdd data sizeofBlockHeader) sizeofBlockHeader) offMagic
        = ptrAdd data offMagic := by
      unfold ptrAdd ptrSub sizeofBlockHeader offMagic; omega
    unfold headerSize headerMagic
    rw [e1, e2]
    constructor
    · rw [readWord_writeWord]
      unfold SIZE_MAX at hb; omega
    · rw [readWord_writeWord_away _ _ _ _ (by unfold ptrAdd offSize offMagic; omega)
        (by unfold ptrAdd offSize offMagic; omega), readWord_writeWord]
      unfold HEADER_MAGIC; omega

theorem recordSize_header (s : MallocHelper) (data bytes : Nat) (hb : bytes ≤ SIZE_MAX)
    (hp : (recordSize s data bytes).1 ≠ NULL) :
    headerSize (recordSize s data bytes).2.mem (recordSize s data bytes).1 = bytes ∧
      headerMagic (recordSize s data bytes).2.mem (recordSize s data bytes).1 = HEADER_MAGIC := by
  by_cases hd : data = NULL
  · subst hd
    rw [recordSize_null] at hp
    exact absurd rfl hp
  · exact recordSize_header_of_data s data bytes hb hd

/-! ## Claims -/

/-- C1: whenever `mallocImpl bytes` returns a non-null pointer `p`, the header 16 bytes
below `p` holds exactly `bytes` in its `size` field and `HEADER_MAGIC` in its `magic`
field, in every state, resolved or not. -/
theorem mallocImpl_stamps_header (s : MallocHelper) (bytes : Nat) (hb : bytes ≤ SIZE_MAX)
    (hp : (mallocImpl s bytes).1 ≠ NULL) :
    headerSize (mallocImpl s bytes).2.mem (mallocImpl s bytes).1 = bytes ∧
      headerMagic (mallocImpl s bytes).2.mem (mallocImpl s bytes).1 = HEADER_MAGIC := by
  unfold mallocImpl at hp ⊢
  cases hm : s.realMalloc with
  | some allocator =>
    simp only [hm] at hp ⊢
    exact recordSize_header _ _ _ hb hp
  | none =>
    simp only [hm] at hp ⊢
    split at hp
    · exact absurd rfl hp
    · rename_i hav
      simp only [hav, if_false]
      exact recordSize_header _ _ _ hb hp

theorem mallocImpl_stamps_header_witness :
    (64 ≤ SIZE_MAX) ∧ (mallocImpl failedState 64).1 ≠ NULL ∧
      headerSize (mallocImpl failedState 64).2.mem (mallocImpl failedState 64).1 = 64 ∧
      headerMagic (mallocImpl failedState 64).2.mem (mallocImpl failedState 64).1
        = HEADER_MAGIC :=
  ⟨by decide, by decide, mallocImpl_stamps_header failedState 64 (by decide) (by decide)⟩

/-- C2: when the exact product `count * size` exceeds `SIZE_MAX`, `callocImpl count size`
returns null and the whole state is unchanged: cursor, memory, function references, and
the list of calls made to the real primitives (none is invoked). -/
theorem callocImpl_overflow_null (s : MallocHelper) (count size : Nat)
    (h : count * size > SIZE_MAX) : callocImpl s count size = (NULL, s) := by
  have hc : 0 ≠ count := by
    rintro rfl
    simp at h
  have hs : 0 ≠ size := by
    rintro rfl
    simp at h
  have hgt : count > SIZE_MAX / size := by
    by_contra hle
    have h1 : count * size ≤ SIZE_MAX / size * size := Nat.mul_le_mul_right size (Nat.le_of_not_gt hle)
    have h2 : SIZE_MAX / size * size ≤ SIZE_MAX := Nat.div_mul_le_self SIZE_MAX size
    omega
  simp [callocImpl, hc, hs, hgt]

theorem callocImpl_overflow_null_witness :
    (2 ^ 63 * 2 > SIZE_MAX) ∧ callocImpl resolvedState (2 ^ 63) 2 = (NULL, resolvedState) :=
  ⟨by decide, callocImpl_overflow_null resolvedState (2 ^ 63) 2 (by decide)⟩

theorem available_eq (s : MallocHelper) (hv : Valid s) :
    toSizeT ((BootHeapSize : Int) - ptrDiff s.bootCursor s.bootHeap)
      = BootHeapSize - (s.bootCursor - s.bootHeap) := by
  obtain ⟨h0, h1, h2, h3⟩ := hv
  unfold BootHeapSize at h1 h3 ⊢
  unfold sizeofBlockHeader at h1
  have hd : (s.bootCursor + (2 ^ 64 - s.bootHeap % 2 ^ 64)) % 2 ^ 64
      = s.bootCursor - s.bootHeap := by omega
  unfold toSizeT ptrDiff
  simp only [hd]
  have hlt : s.bootCursor - s.bootHeap < 2 ^ 63 := by omega
  simp only [hlt, if_true]
  omega

/-- The bump allocation of `mallocImpl` when `realMalloc` is absent: which requests fit,
what is returned and how the cursor moves. -/
theorem mallocImpl_none_cases (s : MallocHelper) (bytes : Nat) (hv : Valid s)
    (hu : s.realMalloc = none) :
    ((mallocImpl s bytes).1 ≠ NULL ↔
        BootHeapSize - (s.bootCursor - s.bootHeap) ≥ adjustSize bytes) ∧
      (BootHeapSize - (s.bootCursor - s.bootHeap) ≥ adjustSize bytes →
        (mallocImpl s bytes).1 = s.bootHeap + (s.bootCursor - s.bootHeap) + sizeofBlockHeader ∧
          (mallocImpl s bytes).2.bootCursor = s.bootCursor + adjustSize bytes) ∧
      (¬ BootHeapSize - (s.bootCursor - s.bootHeap) ≥ adjustSize bytes →
        mallocImpl s bytes = (NULL, s)) := by
  have hav := available_eq s hv
  obtain ⟨h0, h1, h2, h3⟩ := hv
  have hc : s.bootCursor ≠ NULL := by unfold NULL; omega
  unfold BootHeapSize at h1 h3
  unfold sizeofBlockHeader at h1
  by_cases hfit : BootHeapSize - (s.bootCursor - s.bootHeap) ≥ adjustSize bytes
  · have hnot : ¬ (BootHeapSize - (s.bootCursor - s.bootHeap) < adjustSize bytes) := by omega
    have hfst : (mallocImpl s bytes).1 = ptrAdd s.bootCursor sizeofBlockHeader := by
      simp only [mallocImpl, hu, hav, hnot, if_false]
      exact recordSize_fst _ _ _ hc
    have hcur : (mallocImpl s bytes).2.bootCursor = ptrAdd s.bootCursor (adjustSize bytes) := by
      simp [mallocImpl, hu, hav, hnot, recordSize, hc]
    have hp : ptrAdd s.bootCursor sizeofBlockHeader
        = s.bootHeap + (s.bootCursor - s.bootHeap) + sizeofBlockHeader := by
      unfold ptrAdd sizeofBlockHeader; omega
    have hq : ptrAdd s.bootCursor (adjustSize bytes) = s.bootCursor + adjustSize bytes := by
      unfold BootHeapSize at hfit
      unfold ptrAdd; omega
    refine ⟨⟨fun _ => hfit, fun _ => ?_⟩, fun _ => ⟨by rw [hfst, hp], by rw [hcur, hq]⟩,
      fun hn => absurd hfit hn⟩
    rw [hfst, hp]
    unfold NULL sizeofBlockHeader; omega
  · have hlt : BootHeapSize - (s.bootCursor - s.bootHeap) < adjustSize bytes := by omega
    have hnull : mallocImpl s bytes = (NULL, s) := by
      simp only [mallocImpl, hu, hav, hlt, if_true]
    refine ⟨⟨fun hp => ?_, fun h => absurd h hfit⟩, fun h => absurd h hfit, fun _ => hnull⟩
    rw [hnull] at hp
    exact absurd rfl hp

/-- A valid state stays valid across `mallocImpl`. -/
theorem mallocImpl_valid (s : MallocHelper) (bytes : Nat) (hv : Valid s) :
    Valid (mallocImpl s bytes).2 := by
  cases hm : s.realMalloc with
  | some allocator =>
    have hc : (mallocImpl s bytes).2.bootCursor = s.bootCursor := by
      simp only [mallocImpl, hm]
      rw [recordSize_bootCursor]
    have hh : (mallocImpl s bytes).2.bootHeap = s.bootHeap := by
      simp only [mallocImpl, hm]
      unfold recordSize
      split <;> rfl
    unfold Valid
    rw [hc, hh]
    exact hv
  | none =>
    by_cases hfit : BootHeapSize - (s.bootCursor - s.bootHeap) ≥ adjustSize bytes
    · have hc := ((mallocImpl_none_cases s bytes hv hm).2.1 hfit).2
      have hh : (mallocImpl s bytes).2.bootHeap = s.bootHeap := by
        simp only [mallocImpl, hm]
        split
        · rfl
        · unfold recordSize
          split <;> rfl
      obtain ⟨h0, h1, h2, h3⟩ := hv
      unfold Valid
      rw [hc, hh]
      refine ⟨h0, h1, by omega, by omega⟩
    · rw [(mallocImpl_none_cases s bytes hv hm).2.2 hfit]
      exact hv

/-- C3: in the unresolved state, with `used = bootCursor - bootHeap` and
`adjusted = adjustSize bytes`, `mallocImpl bytes` returns non-null exactly when
`BootHeapSize - used >= adjusted`; then it returns `bootHeap + used + sizeof(BlockHeader)`
and the cursor advances by exactly `adjusted`; otherwise it returns null and the state
(cursor and memory) is unchanged. -/
theorem mallocImpl_unresolved_reserve (s : MallocHelper) (bytes : Nat) (hv : Valid s)
    (hu : s.realMalloc = none) :
    ((mallocImpl s bytes).1 ≠ NULL ↔
        BootHeapSize - (s.bootCursor - s.bootHeap) ≥ adjustSize bytes) ∧
      (BootHeapSize - (s.bootCursor - s.bootHeap) ≥ adjustSize bytes →
        (mallocImpl s bytes).1 = s.bootHeap + (s.bootCursor - s.bootHeap) + sizeofBlockHeader ∧
          (mallocImpl s bytes).2.bootCursor = s.bootCursor + adjustSize bytes) ∧
      (¬ BootHeapSize - (s.bootCursor - s.bootHeap) ≥ adjustSize bytes →
        mallocImpl s bytes = (NULL, s)) :=
  mallocImpl_none_cases s bytes hv hu

theorem mallocImpl_unresolved_reserve_witness :
    Valid failedState ∧ failedState.realMalloc = none ∧
      (mallocImpl failedState 4000).1 ≠ NULL ∧
      (mallocImpl failedState 4000).1 = 0x10000 + 0 + 16 ∧
      (mallocImpl failedState 4000).2.bootCursor = 0x10000 + 4016 ∧
      mallocImpl (mallocImpl failedState 4000).2 100 = (NULL, (mallocImpl failedState 4000).2) :=
  ⟨by decide, rfl,
    (mallocImpl_unresolved_reserve failedState 4000 (by decide) rfl).1.2 (by decide),
    ((mallocImpl_unresolved_reserve failedState 4000 (by decide) rfl).2.1 (by decide)).1,
    ((mallocImpl_unresolved_reserve failedState 4000 (by decide) rfl).2.1 (by decide)).2,
    (mallocImpl_unresolved_reserve (mallocImpl failedState 4000).2 100 (by decide) rfl).2.2
      (by decide)⟩

/-- C4: from every state and for every size `n`, `reallocImpl NULL n` gives the same
returned pointer and the same resulting state (cursor, memory, references, calls made to
the real primitives) as `mallocImpl n`; with no real resize primitive it still takes the
block from the fallback arena. -/
theorem reallocImpl_null_is_mallocImpl (s : MallocHelper) (n : Nat) :
    reallocImpl s NULL n = mallocImpl s n ∧
      (s.realRealloc = none → s.realMalloc = none → Valid s →
        BootHeapSize - (s.bootCursor - s.bootHeap) ≥ adjustSize n →
        (reallocImpl s NULL n).1 = s.bootCursor + sizeofBlockHeader) := by
  have h : reallocImpl s NULL n = mallocImpl s n := by simp [reallocImpl]
  refine ⟨h, fun _ hm hv hfit => ?_⟩
  rw [h, ((mallocImpl_none_cases s n hv hm).2.1 hfit).1]
  obtain ⟨_, _, h2, _⟩ := hv
  omega

theorem reallocImpl_null_is_mallocImpl_witness :
    reallocImpl failedState NULL 64 = mallocImpl failedState 64 ∧
      (reallocImpl failedState NULL 64).1 = 0x10000 + 16 :=
  ⟨(reallocImpl_null_is_mallocImpl failedState 64).1,
    (reallocImpl_null_is_mallocImpl failedState 64).2 rfl rfl (by decide) (by decide)⟩

/-- C5: `freeImpl data` does nothing (state unchanged, no call) when `data` is null or
satisfies `isInBootHeap`; otherwise with `realFree` present it makes exactly one call, of
`realFree` with `data - sizeof(BlockHeader)`, and leaves the cursor alone; with `realFree`
absent it does nothing. -/
theorem freeImpl_routing (s : MallocHelper) (data : Nat) :
    ((data = NULL ∨ isInBootHeap s data = true) → freeImpl s data = s) ∧
      (data ≠ NULL → isInBootHeap s data = false →
        (∀ releaser, s.realFree = some releaser →
          freeImpl s data =
            { s with mem := releaser s.mem (ptrSub data sizeofBlockHeader),
                     calls := s.calls ++ [RealCall.free (ptrSub data sizeofBlockHeader)] }) ∧
        (s.realFree = none → freeImpl s data = s)) := by
  refine ⟨fun h => ?_, fun hd hb => ⟨fun releaser hr => ?_, fun hr => ?_⟩⟩
  · rcases h with h | h
    · simp [freeImpl, h]
    · simp [freeImpl, h]
  · simp [freeImpl, hd, hb, hr, preRelease]
  · simp [freeImpl, hd, hb, hr]

theorem freeImpl_routing_witness :
    freeImpl resolvedState NULL = resolvedState ∧
      freeImpl resolvedState 0x10010 = resolvedState ∧
      (freeImpl resolvedState 0x200010).calls = [RealCall.free 0x200000] ∧
      freeImpl failedState 0x200010 = failedState :=
  ⟨(freeImpl_routing resolvedState NULL).1 (Or.inl rfl),
    (freeImpl_routing resolvedState 0x10010).1 (Or.inr (by decide)),
    by rw [((freeImpl_routing resolvedState 0x200010).2 (by decide) (by decide)).1 quietFree rfl]
       rfl,
    ((freeImpl_routing failedState 0x200010).2 (by decide) (by decide)).2 rfl⟩

/-- C8: with the real resize primitive absent, `reallocImpl p n` of any non-null `p`, in
the arena or not, returns null and leaves the whole state unchanged: no call is made, the
cursor does not move, no byte of memory is written. -/
theorem reallocImpl_unresolved_null (s : MallocHelper) (p n : Nat)
    (hr : s.realRealloc = none) (hp : p ≠ NULL) : reallocImpl s p n = (NULL, s) := by
  simp [reallocImpl, hp, hr]

theorem reallocImpl_unresolved_null_witness :
    failedState.realRealloc = none ∧ (0x10010 : Nat) ≠ NULL ∧
      reallocImpl (mallocImpl failedState 32).2 0x10010 64
        = (NULL, (mallocImpl failedState 32).2) ∧
      reallocImpl failedState 0x200010 64 = (NULL, failedState) :=
  ⟨rfl, by decide, reallocImpl_unresolved_null _ 0x10010 64 rfl (by decide),
    reallocImpl_unresolved_null failedState 0x200010 64 rfl (by decide)⟩

/-- C9: with the real zeroing primitive absent, `callocImpl count size` returns null for
every `count` and `size` and leaves the whole state unchanged: the arena cursor and the
arena contents are as before, nothing is taken from the arena. -/
theorem callocImpl_unresolved_null (s : MallocHelper) (count size : Nat)
    (hc : s.realCalloc = none) : callocImpl s count size = (NULL, s) := by
  unfold callocImpl
  split
  · rfl
  · simp [hc]

theorem callocImpl_unresolved_null_witness :
    failedState.realCalloc = none ∧ callocImpl failedState 4 8 = (NULL, failedState) :=
  ⟨rfl, callocImpl_unresolved_null failedState 4 8 rfl⟩

/-! ## The resize of an arena block, and sizes near `SIZE_MAX` -/

/-- In the arena branch of `reallocImpl` the pointer returned by the inner `mallocImpl` is
passed to `recordSize` again: the result lies one header above it. -/
theorem reallocImpl_arena_fst (s : MallocHelper) (p n : Nat) (reallocator : realloc_func)
    (hr : s.realRealloc = some reallocator) (hp : p ≠ NULL) (hin : isInBootHeap s p = true)
    (hres : (mallocImpl s n).1 ≠ NULL) :
    (reallocImpl s p n).1 = ptrAdd (mallocImpl s n).1 sizeofBlockHeader := by
  simp only [reallocImpl, hp, hr, hin, if_true, if_false, hres, ne_eq, not_false_eq_true]
  exact recordSize_fst _ _ _ hres

/-- Away from sizes near `SIZE_MAX`, `callocImpl` in the resolved state makes one call of the
real primitive for `count * size + sizeof(BlockHeader)` bytes, and when that returns a
zero-filled block the payload below the returned pointer is zero. -/
theorem callocImpl_resolved_small (s : MallocHelper) (count size : Nat)
    (allocator : calloc_func) (hc : s.realCalloc = some allocator)
    (hfit : count * size + sizeofBlockHeader ≤ SIZE_MAX)
    (hzero : ∀ j, j < (count * size + sizeofBlockHeader) * 1 →
      (allocator s.mem (count * size + sizeofBlockHeader) 1).2
        (ptrAdd (allocator s.mem (count * size + sizeofBlockHeader) 1).1 j) = 0) :
    (callocImpl s count size).2.calls = s.calls ++
        [RealCall.calloc (count * size + sizeofBlockHeader) 1
          ((allocator s.mem (count * size + sizeofBlockHeader) 1).1 % 2 ^ 64)] ∧
      ((allocator s.mem (count * size + sizeofBlockHeader) 1).1 % 2 ^ 64 = NULL →
        (callocImpl s count size).1 = NULL) ∧
      ((allocator s.mem (count * size + sizeofBlockHeader) 1).1 % 2 ^ 64 ≠ NULL →
        (callocImpl s count size).1 =
            ptrAdd (allocator s.mem (count * size + sizeofBlockHeader) 1).1 sizeofBlockHeader ∧
          headerSize (callocImpl s count size).2.mem (callocImpl s count size).1
            = count * size ∧
          ∀ i, i < count * size →
            readByte (callocImpl s count size).2.mem (ptrAdd (callocImpl s count size).1 i) = 0) := by
  unfold SIZE_MAX sizeofBlockHeader at hfit
  have hguard : ¬ (0 ≠ count ∧ 0 ≠ size ∧ count > SIZE_MAX / size) := by
    rintro ⟨_, hs, hgt⟩
    have h1 : (SIZE_MAX / size + 1) * size ≤ count * size := Nat.mul_le_mul_right size hgt
    have h2 : SIZE_MAX < (SIZE_MAX / size + 1) * size := by
      rw [Nat.mul_comm]
      exact Nat.lt_mul_div_succ SIZE_MAX (Nat.pos_of_ne_zero (Ne.symm hs))
    unfold SIZE_MAX at h1 h2
    omega
  have hbytes : count * size % 2 ^ 64 = count * size := Nat.mod_eq_of_lt (by omega)
  have hadj : adjustSize (count * size) = count * size + sizeofBlockHeader := by
    unfold adjustSize sizeofBlockHeader; omega
  have hcall : callocImpl s count size =
      recordSize
        { s with mem := (allocator s.mem (count * size + sizeofBlockHeader) 1).2,
                 calls := s.calls ++ [RealCall.calloc (count * size + sizeofBlockHeader) 1
                   ((allocator s.mem (count * size + sizeofBlockHeader) 1).1 % 2 ^ 64)] }
        ((allocator s.mem (count * size + sizeofBlockHeader) 1).1 % 2 ^ 64) (count * size) := by
    simp only [callocImpl, hguard, if_false, hbytes, hadj, hc]
  rw [hcall]
  generalize allocator s.mem (count * size + sizeofBlockHeader) 1 = r at hzero ⊢
  refine ⟨?_, fun h0 => ?_, fun h0 => ⟨?_, ?_, fun i hi => ?_⟩⟩
  · rw [recordSize_calls]
  · rw [h0, recordSize_null]
  · rw [recordSize_fst _ _ _ h0]
    unfold ptrAdd; omega
  · exact (recordSize_header_of_data _ _ _ (by unfold SIZE_MAX; omega) h0).1
  · rw [recordSize_fst _ _ _ h0, readByte_ptrAdd,
      recordSize_mem_away _ _ _ _ (by unfold ptrAdd sizeofBlockHeader; omega)]
    have hz := hzero (sizeofBlockHeader + i) (by unfold sizeofBlockHeader; omega)
    have e : ptrAdd (ptrAdd (r.1 % 2 ^ 64) sizeofBlockHeader) i
        = ptrAdd r.1 (sizeofBlockHeader + i) := by
      unfold ptrAdd; omega
    simp only [e, hz, Nat.zero_mod]

/-- Away from sizes near `SIZE_MAX`, `reallocImpl` of a block outside the arena makes one
call of the real resize primitive with `(p - sizeof(BlockHeader), adjustSize m)`; when that
keeps the first `min (adjustSize n) (adjustSize m)` bytes of the raw block, the first
`min n m` payload bytes are kept and the header below the result records `m`. -/
theorem reallocImpl_real_small (s : MallocHelper) (p n m : Nat) (reallocator : realloc_func)
    (hr : s.realRealloc = some reallocator) (hp : p ≠ NULL) (hout : isInBootHeap s p = false)
    (hn : n + sizeofBlockHeader ≤ SIZE_MAX) (hm : m + sizeofBlockHeader ≤ SIZE_MAX)
    (hkeep : ∀ j, j < min (adjustSize n) (adjustSize m) →
      (reallocator s.mem (ptrSub p sizeofBlockHeader) (adjustSize m)).2
          (ptrAdd (reallocator s.mem (ptrSub p sizeofBlockHeader) (adjustSize m)).1 j)
        = s.mem (ptrAdd (ptrSub p sizeofBlockHeader) j))
    (hq : (reallocImpl s p m).1 ≠ NULL) :
    (reallocImpl s p m).2.calls = s.calls ++
        [RealCall.realloc (ptrSub p sizeofBlockHeader) (adjustSize m)
          ((reallocator s.mem (ptrSub p sizeofBlockHeader) (adjustSize m)).1 % 2 ^ 64)] ∧
      headerSize (reallocImpl s p m).2.mem (reallocImpl s p m).1 = m ∧
      ∀ i, i < min n m →
        readByte (reallocImpl s p m).2.mem (ptrAdd (reallocImpl s p m).1 i)
          = readByte s.mem (ptrAdd p i) := by
  unfold SIZE_MAX sizeofBlockHeader at hn hm
  have hpre : preRelease p = ptrSub p sizeofBlockHeader := by simp [preRelease, hp]
  have hcall : reallocImpl s p m =
      recordSize
        { s with mem := (reallocator s.mem (ptrSub p sizeofBlockHeader) (adjustSize m)).2,
                 calls := s.calls ++
                   [RealCall.realloc (ptrSub p sizeofBlockHeader) (adjustSize m)
                     ((reallocator s.mem (ptrSub p sizeofBlockHeader) (adjustSize m)).1 % 2 ^ 64)] }
        ((reallocator s.mem (ptrSub p sizeofBlockHeader) (adjustSize m)).1 % 2 ^ 64) m := by
    simp only [reallocImpl, hp, hr, hout, hpre, if_false, Bool.false_eq_true]
  rw [hcall] at hq ⊢
  generalize reallocator s.mem (ptrSub p sizeofBlockHeader) (adjustSize m) = r at hkeep hq ⊢
  have h0 : r.1 % 2 ^ 64 ≠ NULL := by
    intro h
    rw [h, recordSize_null] at hq
    exact hq rfl
  have han : adjustSize n = n + 16 := by unfold adjustSize sizeofBlockHeader; omega
  have ham : adjustSize m = m + 16 := by unfold adjustSize sizeofBlockHeader; omega
  refine ⟨by rw [recordSize_calls], ?_, fun i hi => ?_⟩
  · exact (recordSize_header_of_data _ _ _ (by unfold SIZE_MAX; omega) h0).1
  · rw [recordSize_fst _ _ _ h0, readByte_ptrAdd, readByte_ptrAdd,
      recordSize_mem_away _ _ _ _ (by
        have := Nat.min_le_left n m
        unfold ptrAdd sizeofBlockHeader; omega)]
    have hk := hkeep (sizeofBlockHeader + i) (by
      rw [han, ham]
      have h1 := Nat.min_le_left n m
      have h2 := Nat.min_le_right n m
      have h3 : n + 16 ≤ min (n + 16) (m + 16) ∨ m + 16 ≤ min (n + 16) (m + 16) := by
        rcases Nat.le_total (n + 16) (m + 16) with h | h
        · left; rw [Nat.min_eq_left h]
        · right; rw [Nat.min_eq_right h]
      unfold sizeofBlockHeader; omega)
    have e1 : ptrAdd (ptrAdd (r.1 % 2 ^ 64) sizeofBlockHeader) i
        = ptrAdd r.1 (sizeofBlockHeader + i) := by
      unfold ptrAdd; omega
    have e2 : ptrAdd (ptrSub p sizeofBlockHeader) (sizeofBlockHeader + i) = ptrAdd p i := by
      unfold ptrAdd ptrSub sizeofBlockHeader; omega
    simp only [e1, hk, e2]

/-- C6: `reallocImpl` of an arena block in the resolved state, evaluated at the block
`0x10010` of `resolvedState` (old size 32) with `newBytes = 32`. The inner `mallocImpl 32`
yields the caller-facing pointer `r = 0x200010`; the claim asks for `r` to be returned with
the payload bytes of `p` readable there. The code stamps `r` a second time: it returns
`0x200020`, the first byte at `r` is the low byte of `HEADER_MAGIC` and not the first payload
byte `0x10` of `p`, and the first byte at the returned pointer is payload byte 16 of `p`. -/
theorem reallocImpl_arena_double_stamp :
    resolvedState.realRealloc.isSome = true ∧ isInBootHeap resolvedState 0x10010 = true ∧
      headerSize resolvedState.mem 0x10010 = 32 ∧
      (mallocImpl resolvedState 32).1 = 0x200010 ∧
      (reallocImpl resolvedState 0x10010 32).1 = 0x200020 ∧
      readByte resolvedState.mem 0x10010 = 0x10 ∧
      readByte (reallocImpl resolvedState 0x10010 32).2.mem 0x200010 = 0x4E ∧
      readByte (reallocImpl resolvedState 0x10010 32).2.mem 0x200020 = 0x20 := by
  decide

/-- C7: `reallocImpl` of a block obtained through the real `malloc`, evaluated at
`n = 64`, `m = 2 ^ 64 - 1` on `heapBlockState` (block `p = 0x200010`, payload all `0xAB`).
`adjustSize m` wraps to 15, so the real resize primitive is asked for 15 raw bytes and keeps
the first `min 80 15 = 15` bytes of the raw block, as its contract says; the code returns the
non-null `q = 0x400010` with `m` recorded in the header, but the first byte read through `q`
is `0x10`, not the `0xAB` stored at `p`. -/
theorem reallocImpl_real_size_wraps :
    (mallocImpl resolvedState 64).1 = 0x200010 ∧
      isInBootHeap heapBlockState 0x200010 = false ∧
      adjustSize 64 = 80 ∧ adjustSize (2 ^ 64 - 1) = 15 ∧
      (reallocImpl heapBlockState 0x200010 (2 ^ 64 - 1)).2.calls
        = [RealCall.malloc 80 0x200000, RealCall.realloc 0x200000 15 0x400000] ∧
      (∀ j, j < 15 →
        (movingRealloc heapBlockState.mem 0x200000 15).2 (0x400000 + j)
          = heapBlockState.mem (0x200000 + j)) ∧
      (reallocImpl heapBlockState 0x200010 (2 ^ 64 - 1)).1 = 0x400010 ∧
      headerSize (reallocImpl heapBlockState 0x200010 (2 ^ 64 - 1)).2.mem 0x400010
        = 2 ^ 64 - 1 ∧
      readByte heapBlockState.mem 0x200010 = 0xAB ∧
      readByte (reallocImpl heapBlockState 0x200010 (2 ^ 64 - 1)).2.mem 0x400010 = 0x10 := by
  decide

/-- C10: `callocImpl` in the resolved state, evaluated at `count = 2 ^ 64 - 1`, `size = 1`,
whose product fits in `size_t`. `adjustSize` wraps to 15: the real zeroing primitive is
asked for 15 raw bytes, not for `count * size + sizeof(BlockHeader)`, and zeroes those 15;
the code returns `0x300010`, one header above the raw block, and the first payload byte
there is `0x10`, not zero. -/
theorem callocImpl_size_wraps :
    (2 ^ 64 - 1) * 1 ≤ SIZE_MAX ∧
      (callocImpl resolvedState (2 ^ 64 - 1) 1).2.calls = [RealCall.calloc 15 1 0x300000] ∧
      (∀ j, j < 15 → (fixedCalloc resolvedState.mem 15 1).2 (0x300000 + j) = 0) ∧
      (callocImpl resolvedState (2 ^ 64 - 1) 1).1 = 0x300010 ∧
      headerSize (callocImpl resolvedState (2 ^ 64 - 1) 1).2.mem 0x300010 = 2 ^ 64 - 1 ∧
      readByte (callocImpl resolvedState (2 ^ 64 - 1) 1).2.mem 0x300010 = 0x10 := by
  decide

/-! ## The entry points leave the references alone -/

theorem sameRefs_refl (s : MallocHelper) : SameRefs s s := ⟨rfl, rfl, rfl, rfl, rfl, rfl⟩

theorem sameRefs_trans (s t u : MallocHelper) (h1 : SameRefs s t) (h2 : SameRefs t u) :
    SameRefs s u :=
  ⟨h2.1.trans h1.1, h2.2.1.trans h1.2.1, h2.2.2.1.trans h1.2.2.1,
    h2.2.2.2.1.trans h1.2.2.2.1, h2.2.2.2.2.1.trans h1.2.2.2.2.1,
    h2.2.2.2.2.2.trans h1.2.2.2.2.2⟩

theorem recordSize_sameRefs (s t : MallocHelper) (data bytes : Nat) (h : SameRefs s t) :
    SameRefs s (recordSize t data bytes).2 := by
  unfold recordSize
  split
  · exact h
  · exact h

theorem mallocImpl_sameRefs (s : MallocHelper) (bytes : Nat) :
    SameRefs s (mallocImpl s bytes).2 := by
  unfold mallocImpl
  simp only
  split
  · exact recordSize_sameRefs _ _ _ _ ⟨rfl, rfl, rfl, rfl, rfl, rfl⟩
  · split
    · exact sameRefs_refl s
    · exact recordSize_sameRefs _ _ _ _ ⟨rfl, rfl, rfl, rfl, rfl, rfl⟩

theorem callocImpl_sameRefs (s : MallocHelper) (count size : Nat) :
    SameRefs s (callocImpl s count size).2 := by
  unfold callocImpl
  simp only
  split
  · exact sameRefs_refl s
  · split
    · exact sameRefs_refl s
    · exact recordSize_sameRefs _ _ _ _ ⟨rfl, rfl, rfl, rfl, rfl, rfl⟩

theorem freeImpl_sameRefs (s : MallocHelper) (data : Nat) : SameRefs s (freeImpl s data) := by
  unfold freeImpl
  simp only
  split
  · exact sameRefs_refl s
  · split
    · exact sameRefs_refl s
    · split
      · exact ⟨rfl, rfl, rfl, rfl, rfl, rfl⟩
      · exact sameRefs_refl s

theorem reallocImpl_sameRefs (s : MallocHelper) (data bytes : Nat) :
    SameRefs s (reallocImpl s data bytes).2 := by
  unfold reallocImpl
  simp only
  split
  · exact mallocImpl_sameRefs s bytes
  · split
    · exact sameRefs_refl s
    · split
      · split
        · exact recordSize_sameRefs _ _ _ _ (mallocImpl_sameRefs s bytes)
        · exact recordSize_sameRefs _ _ _ _ (mallocImpl_sameRefs s bytes)
      · exact recordSize_sameRefs _ _ _ _ ⟨rfl, rfl, rfl, rfl, rfl, rfl⟩

theorem step_sameRefs (s : MallocHelper) (op : Op) : SameRefs s (step s op) := by
  cases op with
  | calloc count size => exact callocImpl_sameRefs s count size
  | free data => exact freeImpl_sameRefs s data
  | malloc bytes => exact mallocImpl_sameRefs s bytes
  | realloc data bytes => exact reallocImpl_sameRefs s data bytes

theorem run_sameRefs (ops : List Op) (s : MallocHelper) : SameRefs s (run s ops) := by
  induction ops generalizing s with
  | nil => exact sameRefs_refl s
  | cons op rest ih =>
    exact sameRefs_trans _ _ _ (step_sameRefs s op) (ih (step s op))

/-- The calls `dlopen` makes find and leave every reference absent. -/
theorem early_refs_absent (bootHeap : Nat) (mem : Mem) (early : List Op) :
    (run (initState bootHeap mem) early).realCalloc = none ∧
      (run (initState bootHeap mem) early).realFree = none ∧
      (run (initState bootHeap mem) early).realMalloc = none ∧
      (run (initState bootHeap mem) early).realRealloc = none := by
  obtain ⟨_, h2, h3, h4, h5, _⟩ := run_sameRefs early (initState bootHeap mem)
  exact ⟨h2, h3, h4, h5⟩

/-- C11: resolution is all-or-nothing. Whatever `dlopen` and the four `dlsym` lookups
return, after the constructor either the handle and all four references are present or
all five are absent; all are present exactly when the open and all four lookups succeeded;
when the library was opened and some lookup failed the handle is closed exactly once (it is
that handle); and otherwise nothing is closed. -/
theorem construct_all_or_nothing (bootHeap : Nat) (mem : Mem) (ld : Loader) :
    (allPresent (construct bootHeap mem ld).1 ∨ allAbsent (construct bootHeap mem ld).1) ∧
      (allPresent (construct bootHeap mem ld).1 ↔ allFound ld) ∧
      (ld.opened ≠ NULL → ¬ allFound ld →
        closeCount (construct bootHeap mem ld).2 = 1 ∧
          DlCall.dlclose ld.opened ∈ (construct bootHeap mem ld).2) ∧
      ((ld.opened = NULL ∨ allFound ld) → closeCount (construct bootHeap mem ld).2 = 0) := by
  obtain ⟨h2, h3, h4, h5⟩ := early_refs_absent bootHeap mem ld.early
  rcases ld with ⟨opened, early, c, f, m, r⟩
  simp only at h2 h3 h4 h5
  by_cases h0 : opened = NULL
  · simp [construct, allPresent, allAbsent, allFound, closeCount, h0, h2, h3, h4, h5]
  · cases c <;> cases f <;> cases m <;> cases r <;>
      simp [construct, constructFail, allPresent, allAbsent, allFound, closeCount, h0]

theorem construct_all_or_nothing_witness :
    allPresent (construct 0x10000 zeroMem goodLoader).1 ∧
      closeCount (construct 0x10000 zeroMem goodLoader).2 = 0 ∧
      allAbsent (construct 0x10000 zeroMem noReallocLoader).1 ∧
      closeCount (construct 0x10000 zeroMem noReallocLoader).2 = 1 ∧
      DlCall.dlclose 7 ∈ (construct 0x10000 zeroMem noReallocLoader).2 :=
  ⟨(construct_all_or_nothing 0x10000 zeroMem goodLoader).2.1.2 (by decide),
    (construct_all_or_nothing 0x10000 zeroMem goodLoader).2.2.2 (Or.inr (by decide)),
    ((construct_all_or_nothing 0x10000 zeroMem noReallocLoader).1).resolve_left
      (fun h => absurd ((construct_all_or_nothing 0x10000 zeroMem noReallocLoader).2.1.1 h)
        (by decide)),
    ((construct_all_or_nothing 0x10000 zeroMem noReallocLoader).2.2.1 (by decide)
      (by decide)).1,
    ((construct_all_or_nothing 0x10000 zeroMem noReallocLoader).2.2.1 (by decide)
      (by decide)).2⟩

/-! ## Size adjustment, arena membership, header conversions -/

/-- Away from the top of `size_t` the adjusted size is the exact sum. -/
theorem adjustSize_small (requested : Nat) (h : requested + sizeofBlockHeader ≤ SIZE_MAX) :
    adjustSize requested = requested + sizeofBlockHeader := by
  unfold SIZE_MAX sizeofBlockHeader at h
  unfold adjustSize sizeofBlockHeader
  omega

/-- C16: `adjustSize` evaluated at `requested = SIZE_MAX`, a `size_t` value: the result is
15, which is not `requested + sizeof(BlockHeader)`, is smaller than `sizeof(BlockHeader)`
and is not larger than `requested`; through `mallocImpl` in the resolved state the real
primitive is asked for those 15 bytes. -/
theorem adjustSize_wraps :
    2 ^ 64 - 1 ≤ SIZE_MAX ∧ adjustSize (2 ^ 64 - 1) = 15 ∧
      adjustSize (2 ^ 64 - 1) ≠ (2 ^ 64 - 1) + sizeofBlockHeader ∧
      adjustSize (2 ^ 64 - 1) < sizeofBlockHeader ∧
      ¬ (2 ^ 64 - 1 < adjustSize (2 ^ 64 - 1)) ∧
      (mallocImpl resolvedState (2 ^ 64 - 1)).2.calls = [RealCall.malloc 15 0x200000] := by
  decide

/-- C18, as stated, fails at the 64-bit address `bootHeap + 2 ^ 63`: the signed
difference is negative, so the test `< BootHeapSize` holds and `isInBootHeap` answers
true for an address outside `[bootHeap, bootHeap + BootHeapSize)`. -/
theorem isInBootHeap_far_address :
    0x10000 + 2 ^ 63 < 2 ^ 64 ∧ failedState.bootHeap = 0x10000 ∧
      ptrDiff (0x10000 + 2 ^ 63) failedState.bootHeap = -(2 ^ 63) ∧
      isInBootHeap failedState (0x10000 + 2 ^ 63) = true ∧
      ¬ (failedState.bootHeap ≤ 0x10000 + 2 ^ 63 ∧
          0x10000 + 2 ^ 63 < failedState.bootHeap + BootHeapSize) := by
  decide

/-- The membership test on addresses whose difference from `bootHeap` fits `ptrdiff_t`. -/
theorem isInBootHeap_near (s : MallocHelper) (data : Nat)
    (hnear : data < s.bootHeap + 2 ^ 63) :
    isInBootHeap s data = true ↔ s.bootHeap ≤ data ∧ data < s.bootHeap + BootHeapSize := by
  unfold isInBootHeap ptrDiff BootHeapSize
  simp only [Bool.and_eq_true, decide_eq_true_eq, ge_iff_le]
  constructor
  · rintro ⟨h1, h2⟩
    refine ⟨h1, ?_⟩
    have hdiff : (data + (2 ^ 64 - s.bootHeap % 2 ^ 64)) % 2 ^ 64 = data - s.bootHeap := by
      omega
    rw [hdiff] at h2
    have hlt : data - s.bootHeap < 2 ^ 63 := by omega
    simp only [hlt, if_true] at h2
    omega
  · rintro ⟨h1, h2⟩
    refine ⟨h1, ?_⟩
    have hdiff : (data + (2 ^ 64 - s.bootHeap % 2 ^ 64)) % 2 ^ 64 = data - s.bootHeap := by
      omega
    rw [hdiff]
    have hlt : data - s.bootHeap < 2 ^ 63 := by omega
    simp only [hlt, if_true]
    omega

/-- C18, amended: for every 64-bit address `data` less than `2 ^ 63` bytes above
`bootHeap` (the difference `data - bootHeap` fits the signed `ptrdiff_t`),
`isInBootHeap data` is true exactly when `bootHeap <= data < bootHeap + BootHeapSize`. -/
theorem isInBootHeap_iff_range (s : MallocHelper) (data : Nat)
    (hnear : data < s.bootHeap + 2 ^ 63) :
    isInBootHeap s data = true ↔ s.bootHeap ≤ data ∧ data < s.bootHeap + BootHeapSize :=
  isInBootHeap_near s data hnear

theorem isInBootHeap_iff_range_witness :
    0x10010 < failedState.bootHeap + 2 ^ 63 ∧ 0x11000 < failedState.bootHeap + 2 ^ 63 ∧
      (isInBootHeap failedState 0x10010 = true ↔
        failedState.bootHeap ≤ 0x10010 ∧ 0x10010 < failedState.bootHeap + BootHeapSize) ∧
      (isInBootHeap failedState 0x11000 = true ↔
        failedState.bootHeap ≤ 0x11000 ∧ 0x11000 < failedState.bootHeap + BootHeapSize) :=
  ⟨by decide, by decide, isInBootHeap_iff_range failedState 0x10010 (by decide),
    isInBootHeap_iff_range failedState 0x11000 (by decide)⟩

/-- C19: `recordSize` and `preRelease` are inverse to each other and keep null: for every
raw block address `r` and size `n`, `preRelease (recordSize r n) = r`; for every
caller-facing pointer `p`, `recordSize (preRelease p) n = p`; `recordSize NULL n` is null
and leaves the state, memory included, as it was; `preRelease NULL` is null. -/
theorem header_conversions_inverse (s : MallocHelper) (n : Nat) :
    (∀ r, IsRawBlock r → preRelease (recordSize s r n).1 = r) ∧
      (∀ p, IsCallerFacing p → (recordSize s (preRelease p) n).1 = p) ∧
      recordSize s NULL n = (NULL, s) ∧ preRelease NULL = NULL := by
  refine ⟨fun r hr => ?_, fun p hp => ?_, recordSize_null s n, by simp [preRelease]⟩
  · obtain ⟨h0, h1⟩ := hr
    rw [recordSize_fst s r n h0]
    unfold NULL at h0
    unfold sizeofBlockHeader at h1
    have hne : ptrAdd r sizeofBlockHeader ≠ NULL := by
      unfold ptrAdd sizeofBlockHeader NULL; omega
    simp only [preRelease, hne, if_false]
    unfold ptrSub ptrAdd sizeofBlockHeader; omega
  · obtain ⟨r, ⟨h0, h1⟩, rfl⟩ := hp
    unfold NULL at h0
    unfold sizeofBlockHeader at h1
    have hne : r + sizeofBlockHeader ≠ NULL := by
      unfold sizeofBlockHeader NULL; omega
    have hpre : preRelease (r + sizeofBlockHeader) = r := by
      simp only [preRelease, hne, if_false]
      unfold ptrSub sizeofBlockHeader; omega
    rw [hpre, recordSize_fst s r n (by unfold NULL; omega)]
    unfold ptrAdd sizeofBlockHeader; omega

theorem header_conversions_inverse_witness :
    preRelease (recordSize resolvedState 0x200000 64).1 = 0x200000 ∧
      (recordSize resolvedState (preRelease 0x200010) 64).1 = 0x200010 :=
  ⟨(header_conversions_inverse resolvedState 64).1 0x200000 (by decide),
    (header_conversions_inverse resolvedState 64).2.1 0x200010
      ⟨0x200000, by decide, by decide⟩⟩

/-! ## The cursor

The lemmas of this section follow the assignments to `bootCursor` on the record. -/

theorem valid_of_eq (s t : MallocHelper) (hh : t.bootHeap = s.bootHeap)
    (hc : t.bootCursor = s.bootCursor) (hv : Valid s) : Valid t := by
  unfold Valid at hv ⊢
  rw [hh, hc]
  exact hv

theorem grows_refl (s : MallocHelper) (hv : Valid s) : Grows s s := ⟨hv, rfl, Nat.le_refl _⟩

theorem grows_trans (s t u : MallocHelper) (h1 : Grows s t) (h2 : Grows t u) : Grows s u :=
  ⟨h2.1, h2.2.1.trans h1.2.1, Nat.le_trans h1.2.2 h2.2.2⟩

theorem grows_of_eq (s t : MallocHelper) (hh : t.bootHeap = s.bootHeap)
    (hc : t.bootCursor = s.bootCursor) (hv : Valid s) : Grows s t :=
  ⟨valid_of_eq s t hh hc hv, hh, Nat.le_of_eq hc.symm⟩

theorem recordSize_bootHeap (s : MallocHelper) (data bytes : Nat) :
    (recordSize s data bytes).2.bootHeap = s.bootHeap := by
  unfold recordSize
  split <;> rfl

theorem recordSize_grows (s t : MallocHelper) (data bytes : Nat) (h : Grows s t) :
    Grows s (recordSize t data bytes).2 :=
  grows_trans _ _ _ h
    (grows_of_eq _ _ (recordSize_bootHeap t data bytes) (recordSize_bootCursor t data bytes) h.1)

theorem mallocImpl_grows (s : MallocHelper) (bytes : Nat) (hv : Valid s) :
    Grows s (mallocImpl s bytes).2 := by
  refine ⟨mallocImpl_valid s bytes hv, (mallocImpl_sameRefs s bytes).2.2.2.2.2, ?_⟩
  cases hm : s.realMalloc with
  | some allocator =>
    have hc : (mallocImpl s bytes).2.bootCursor = s.bootCursor := by
      simp only [mallocImpl, hm]
      rw [recordSize_bootCursor]
    omega
  | none =>
    by_cases hfit : BootHeapSize - (s.bootCursor - s.bootHeap) ≥ adjustSize bytes
    · rw [((mallocImpl_none_cases s bytes hv hm).2.1 hfit).2]
      omega
    · rw [(mallocImpl_none_cases s bytes hv hm).2.2 hfit]

theorem callocImpl_grows (s : MallocHelper) (count size : Nat) (hv : Valid s) :
    Grows s (callocImpl s count size).2 := by
  unfold callocImpl
  simp only
  split
  · exact grows_refl s hv
  · split
    · exact grows_refl s hv
    · exact recordSize_grows _ _ _ _ (grows_of_eq _ _ rfl rfl hv)

theorem freeImpl_grows (s : MallocHelper) (data : Nat) (hv : Valid s) :
    Grows s (freeImpl s data) := by
  unfold freeImpl
  simp only
  split
  · exact grows_refl s hv
  · split
    · exact grows_refl s hv
    · split
      · exact grows_of_eq _ _ rfl rfl hv
      · exact grows_refl s hv

theorem reallocImpl_grows (s : MallocHelper) (data bytes : Nat) (hv : Valid s) :
    Grows s (reallocImpl s data bytes).2 := by
  have hm := mallocImpl_grows s bytes hv
  unfold reallocImpl
  simp only
  split
  · exact hm
  · split
    · exact grows_refl s hv
    · split
      · split
        · exact recordSize_grows _ _ _ _
            (grows_trans _ _ _ hm (grows_of_eq _ _ rfl rfl hm.1))
        · exact recordSize_grows _ _ _ _ hm
      · exact recordSize_grows _ _ _ _ (grows_of_eq _ _ rfl rfl hv)

theorem step_grows (s : MallocHelper) (op : Op) (hv : Valid s) : Grows s (step s op) := by
  cases op with
  | calloc count size => exact callocImpl_grows s count size hv
  | free data => exact freeImpl_grows s data hv
  | malloc bytes => exact mallocImpl_grows s bytes hv
  | realloc data bytes => exact reallocImpl_grows s data bytes hv

theorem run_grows (ops : List Op) (s : MallocHelper) (hv : Valid s) : Grows s (run s ops) := by
  induction ops generalizing s with
  | nil => exact grows_refl s hv
  | cons op rest ih =>
    exact grows_trans _ _ _ (step_grows s op hv) (ih (step s op) (step_grows s op hv).1)

theorem construct_grows (bootHeap : Nat) (mem : Mem) (ld : Loader)
    (hplace : 0 < bootHeap ∧ bootHeap + BootHeapSize + sizeofBlockHeader < 2 ^ 64) :
    Valid (construct bootHeap mem ld).1 ∧ (construct bootHeap mem ld).1.bootHeap = bootHeap := by
  have h0 : Valid (initState bootHeap mem) :=
    ⟨hplace.1, hplace.2, Nat.le_refl _, Nat.le_add_right _ _⟩
  obtain ⟨hv, hh, _⟩ := run_grows ld.early _ h0
  rcases ld with ⟨opened, early, c, f, m, r⟩
  simp only at hv hh
  by_cases hopen : opened = NULL
  · simp only [construct, hopen, if_true]
    exact ⟨valid_of_eq _ _ rfl rfl hv, hh⟩
  · cases c <;> cases f <;> cases m <;> cases r <;>
      simp only [construct, constructFail, hopen, if_false] <;>
      exact ⟨valid_of_eq _ _ rfl rfl hv, hh⟩

/-! ## Arena blocks and the membership test -/

/-- A non-empty arena block of a size away from `SIZE_MAX` passes the membership test, and
`freeImpl` of it does nothing in any state with the same arena. -/
theorem mallocImpl_none_in_arena (s t : MallocHelper) (bytes : Nat) (hv : Valid s)
    (hu : s.realMalloc = none) (hpos : 0 < bytes)
    (hfit : bytes + sizeofBlockHeader ≤ SIZE_MAX) (hp : (mallocImpl s bytes).1 ≠ NULL)
    (ht : t.bootHeap = s.bootHeap) :
    isInBootHeap t (mallocImpl s bytes).1 = true ∧ freeImpl t (mallocImpl s bytes).1 = t := by
  have hc := mallocImpl_none_cases s bytes hv hu
  have hroom := hc.1.1 hp
  have hptr := (hc.2.1 hroom).1
  have hadj := adjustSize_small bytes hfit
  obtain ⟨h0, h1, h2, h3⟩ := hv
  unfold BootHeapSize at hroom h1 h3
  unfold sizeofBlockHeader at hptr hadj h1
  have hin : isInBootHeap t (mallocImpl s bytes).1 = true := by
    rw [isInBootHeap_near t _ (by rw [ht, hptr]; omega), ht, hptr]
    unfold BootHeapSize
    omega
  exact ⟨hin, by simp [freeImpl, hin]⟩

/-- C12: two `mallocImpl` calls in the unresolved state on an empty arena at `0x10000`,
for 4064 and then 0 bytes. The second returns the non-null `p = 0x11000`, which is
`bootHeap + BootHeapSize`: `isInBootHeap p` is false. After a resolution that succeeded
(`arenaEndLoader`: the two calls are made by `dlopen`), `freeImpl p` is not a no-op: it
calls the real `free` with the arena address `0x10FF0`. -/
theorem arena_end_block_not_in_arena :
    (mallocImpl failedState 4064).1 = 0x10010 ∧
      (mallocImpl (mallocImpl failedState 4064).2 0).1 = 0x11000 ∧
      (0x11000 : Nat) ≠ NULL ∧
      isInBootHeap (mallocImpl (mallocImpl failedState 4064).2 0).2 0x11000 = false ∧
      allPresent (construct 0x10000 zeroMem arenaEndLoader).1 ∧
      (construct 0x10000 zeroMem arenaEndLoader).1.bootCursor = 0x11000 ∧
      isInBootHeap (construct 0x10000 zeroMem arenaEndLoader).1 0x11000 = false ∧
      (freeImpl (construct 0x10000 zeroMem arenaEndLoader).1 0x11000).calls
        = [RealCall.free 0x10FF0] := by
  decide

/-! ## Headers of arena blocks -/

theorem readWord_congr (m m' : Mem) (a : Nat)
    (h : ∀ k, k < 8 → m (ptrAdd a k) = m' (ptrAdd a k)) : readWord m a = readWord m' a := by
  simp only [readWord, readByte_ptrAdd]
  rw [h 0 (by omega), h 1 (by omega), h 2 (by omega), h 3 (by omega), h 4 (by omega),
    h 5 (by omega), h 6 (by omega), h 7 (by omega)]

/-- The header below a non-null result of `mallocImpl`. -/
theorem mallocImpl_header (s : MallocHelper) (bytes : Nat) (hb : bytes ≤ SIZE_MAX)
    (hp : (mallocImpl s bytes).1 ≠ NULL) :
    headerSize (mallocImpl s bytes).2.mem (mallocImpl s bytes).1 = bytes ∧
      headerMagic (mallocImpl s bytes).2.mem (mallocImpl s bytes).1 = HEADER_MAGIC := by
  unfold mallocImpl at hp ⊢
  cases hm : s.realMalloc with
  | some allocator =>
    simp only [hm] at hp ⊢
    exact recordSize_header _ _ _ hb hp
  | none =>
    simp only [hm] at hp ⊢
    split at hp
    · exact absurd rfl hp
    · rename_i hav
      simp only [hav, if_false]
      exact recordSize_header _ _ _ hb hp

/-- A bump allocation writes nothing below the cursor. -/
theorem mallocImpl_none_mem_below (s : MallocHelper) (bytes x : Nat) (hv : Valid s)
    (hu : s.realMalloc = none) (hx : x < s.bootCursor) :
    (mallocImpl s bytes).2.mem x = s.mem x := by
  obtain ⟨h0, h1, h2, h3⟩ := hv
  unfold BootHeapSize at h1 h3
  unfold sizeofBlockHeader at h1
  simp only [mallocImpl, hu]
  split
  · rfl
  · rw [recordSize_mem_away _ _ _ _ (by omega)]

theorem step_unresolved_mem_below (s : MallocHelper) (op : Op) (x : Nat) (hv : Valid s)
    (hun : Unresolved s) (hx : x < s.bootCursor) : (step s op).mem x = s.mem x := by
  obtain ⟨hc, hf, hm, hr⟩ := hun
  cases op with
  | calloc count size =>
    simp only [step, callocImpl, hc]
    split <;> rfl
  | free data =>
    simp only [step, freeImpl, hf]
    split
    · rfl
    · split <;> rfl
  | malloc bytes => exact mallocImpl_none_mem_below s bytes x hv hm hx
  | realloc data bytes =>
    simp only [step, reallocImpl, hr]
    split
    · exact mallocImpl_none_mem_below s bytes x hv hm hx
    · rfl

theorem step_unresolved (s : MallocHelper) (op : Op) (hun : Unresolved s) :
    Unresolved (step s op) := by
  obtain ⟨_, h2, h3, h4, h5, _⟩ := step_sameRefs s op
  obtain ⟨hc, hf, hm, hr⟩ := hun
  exact ⟨h2.trans hc, h3.trans hf, h4.trans hm, h5.trans hr⟩

theorem run_unresolved_mem_below (ops : List Op) (s : MallocHelper) (x : Nat) (hv : Valid s)
    (hun : Unresolved s) (hx : x < s.bootCursor) : (run s ops).mem x = s.mem x := by
  induction ops generalizing s with
  | nil => rfl
  | cons op rest ih =>
    have hg := step_grows s op hv
    have h1 := ih (step s op) hg.1 (step_unresolved s op hun) (Nat.lt_of_lt_of_le hx hg.2.2)
    have h2 := step_unresolved_mem_below s op x hv hun hx
    exact h1.trans h2

/-- While no reference is present, the header of an arena block of a size away from
`SIZE_MAX` lies inside the arena and keeps its magic and size across every later sequence
of entry-point calls. -/
theorem arena_header_kept (s : MallocHelper) (bytes : Nat) (ops : List Op) (hv : Valid s)
    (hun : Unresolved s) (hfit : bytes + sizeofBlockHeader ≤ SIZE_MAX)
    (hp : (mallocImpl s bytes).1 ≠ NULL) :
    headerSize (run (mallocImpl s bytes).2 ops).mem (mallocImpl s bytes).1 = bytes ∧
      headerMagic (run (mallocImpl s bytes).2 ops).mem (mallocImpl s bytes).1 = HEADER_MAGIC ∧
      s.bootHeap ≤ ptrSub (mallocImpl s bytes).1 sizeofBlockHeader ∧
      ptrSub (mallocImpl s bytes).1 sizeofBlockHeader + sizeofBlockHeader
        ≤ s.bootHeap + BootHeapSize := by
  have hc := mallocImpl_none_cases s bytes hv hun.2.2.1
  have hroom := hc.1.1 hp
  obtain ⟨hptr, hcur⟩ := hc.2.1 hroom
  have hadj := adjustSize_small bytes hfit
  have hv1 := mallocImpl_valid s bytes hv
  have hun1 : Unresolved (mallocImpl s bytes).2 := step_unresolved s (Op.malloc bytes) hun
  have hhead := mallocImpl_header s bytes (by unfold sizeofBlockHeader at hfit; omega) hp
  have hkeep : ∀ x, x < s.bootCursor + sizeofBlockHeader →
      (run (mallocImpl s bytes).2 ops).mem x = (mallocImpl s bytes).2.mem x := fun x hx =>
    run_unresolved_mem_below ops _ x hv1 hun1 (by rw [hcur, hadj]; omega)
  obtain ⟨h0, h1, h2, h3⟩ := hv
  unfold BootHeapSize at hroom h1 h3 ⊢
  unfold sizeofBlockHeader at hptr hadj h1 hkeep ⊢
  have hsub : ptrSub (mallocImpl s bytes).1 16 = s.bootCursor := by
    rw [hptr]; unfold ptrSub; omega
  refine ⟨?_, ?_, by rw [hsub]; exact h2, by rw [hsub]; omega⟩
  · refine Eq.trans ?_ hhead.1
    unfold headerSize sizeofBlockHeader
    rw [hsub]
    exact readWord_congr _ _ _ (fun k hk => hkeep _ (by unfold ptrAdd offSize; omega))
  · refine Eq.trans ?_ hhead.2
    unfold headerMagic sizeofBlockHeader
    rw [hsub]
    exact readWord_congr _ _ _ (fun k hk => hkeep _ (by unfold ptrAdd offMagic; omega))

/-- C13: two `mallocImpl` calls in the initial unresolved state, for `2 ^ 64 - 16` and then
8 bytes. The first returns the non-null `p = 0x10010` with `2 ^ 64 - 16` in the header and,
`adjustSize` being 0, leaves the cursor at the start of the arena; the second returns the
same `p` and writes its header over the first: the header below `p` now holds 8, not the
size first requested for `p`. -/
theorem arena_header_overwritten :
    adjustSize (2 ^ 64 - 16) = 0 ∧
      (mallocImpl failedState (2 ^ 64 - 16)).1 = 0x10010 ∧
      (mallocImpl failedState (2 ^ 64 - 16)).2.bootCursor = 0x10000 ∧
      headerSize (mallocImpl failedState (2 ^ 64 - 16)).2.mem 0x10010 = 2 ^ 64 - 16 ∧
      (mallocImpl (mallocImpl failedState (2 ^ 64 - 16)).2 8).1 = 0x10010 ∧
      headerSize (mallocImpl (mallocImpl failedState (2 ^ 64 - 16)).2 8).2.mem 0x10010 = 8 ∧
      headerSize (run failedState [Op.malloc (2 ^ 64 - 16), Op.malloc 8]).mem 0x10010
        ≠ 2 ^ 64 - 16 := by
  decide

/-! ## The resolved state -/

/-- With the real `malloc` present no entry point assigns `bootCursor`: the record field
stays. (A store that falls on the member itself is the concern of `Obj`.) -/
theorem step_resolved_cursor (s : MallocHelper) (op : Op) (allocator : malloc_func)
    (hm : s.realMalloc = some allocator) : (step s op).bootCursor = s.bootCursor := by
  have hmal : ∀ bytes, (mallocImpl s bytes).2.bootCursor = s.bootCursor := by
    intro bytes
    simp only [mallocImpl, hm]
    rw [recordSize_bootCursor]
  cases op with
  | calloc count size =>
    simp only [step, callocImpl]
    split
    · rfl
    · split
      · rfl
      · rw [recordSize_bootCursor]
  | free data =>
    simp only [step, freeImpl]
    split
    · rfl
    · split
      · rfl
      · split <;> rfl
  | malloc bytes => exact hmal bytes
  | realloc data bytes =>
    simp only [step, reallocImpl]
    split
    · exact hmal bytes
    · split
      · rfl
      · split
        · split
          · rw [recordSize_bootCursor]
            exact hmal bytes
          · rw [recordSize_bootCursor]
            exact hmal bytes
        · rw [recordSize_bootCursor]

/-- C17: in the resolved state `resolvedState`, `reallocImpl` of the arena block `0x10010`
returns the non-null `p = 0x200020`, outside the arena. The only raw block the real
primitives have produced is `0x200000`; `p - sizeof(BlockHeader)` is `0x200010`, which no
real primitive returned, and `freeImpl p` and `reallocImpl p 8` hand exactly that address
to the real `free` and the real `realloc`. -/
theorem freed_address_not_produced :
    (reallocImpl resolvedState 0x10010 32).1 = 0x200020 ∧ (0x200020 : Nat) ≠ NULL ∧
      isInBootHeap (reallocImpl resolvedState 0x10010 32).2 0x200020 = false ∧
      produced (reallocImpl resolvedState 0x10010 32).2.calls = [0x200000] ∧
      ptrSub 0x200020 sizeofBlockHeader = 0x200010 ∧
      (freeImpl (reallocImpl resolvedState 0x10010 32).2 0x200020).calls
        = [RealCall.malloc 48 0x200000, RealCall.free 0x200010] ∧
      (reallocImpl (reallocImpl resolvedState 0x10010 32).2 0x200020 8).2.calls
        = [RealCall.malloc 48 0x200000, RealCall.realloc 0x200010 24 0x400000] := by
  decide

/-! ## The arena bytes in the resolved state, for sizes that do not wrap

These lemmas are about the stores that stay inside the block a real primitive handed
out; there the record and the instance in memory agree. -/

theorem memcpy_away (m : Mem) (dst src n x : Nat)
    (h : n ≤ (x + (2 ^ 64 - dst % 2 ^ 64)) % 2 ^ 64) : memcpy m dst src n x = m x := by
  have hn : ¬ (x + (2 ^ 64 - dst % 2 ^ 64)) % 2 ^ 64 < n := by omega
  simp only [memcpy, hn, if_false]

/-- A header written at the start of a block outside the arena leaves the arena bytes. -/
theorem recordSize_keeps (s t : MallocHelper) (raw size bytes : Nat) (hv : Valid s)
    (hout : Outside s raw size) (hsize : sizeofBlockHeader ≤ size)
    (hk : ArenaKept s t.mem) : ArenaKept s (recordSize t raw bytes).2.mem := by
  intro x hx1 hx2
  obtain ⟨h0, h1, _, _⟩ := hv
  obtain ⟨ho1, ho2⟩ := hout
  unfold BootHeapSize at h1 hx2 ho2
  unfold sizeofBlockHeader at h1 hsize
  rw [recordSize_mem_away _ _ _ _ (by omega)]
  exact hk x hx1 (by unfold BootHeapSize; omega)

/-- `mallocImpl` through a real `malloc` that leaves the arena bytes and hands out null or
a block outside the arena leaves the arena bytes, for sizes up to `SIZE_MAX - 16`. -/
theorem mallocImpl_resolved_keeps (s : MallocHelper) (bytes : Nat) (allocator : malloc_func)
    (hv : Valid s) (hm : s.realMalloc = some allocator)
    (hfit : bytes + sizeofBlockHeader ≤ SIZE_MAX)
    (hk : ArenaKept s (allocator s.mem (adjustSize bytes)).2)
    (hout : (allocator s.mem (adjustSize bytes)).1 % 2 ^ 64 = NULL ∨
      Outside s ((allocator s.mem (adjustSize bytes)).1 % 2 ^ 64) (adjustSize bytes)) :
    ArenaKept s (mallocImpl s bytes).2.mem := by
  have hadj := adjustSize_small bytes hfit
  simp only [mallocImpl, hm]
  rcases hout with h0 | hout
  · rw [h0, recordSize_null]
    exact hk
  · exact recordSize_keeps s _ _ _ _ hv hout (by rw [hadj]; omega) hk

/-- The same for `callocImpl` through a real `calloc`. -/
theorem callocImpl_resolved_keeps (s : MallocHelper) (count size : Nat)
    (allocator : calloc_func) (hv : Valid s) (hc : s.realCalloc = some allocator)
    (hfit : count * size + sizeofBlockHeader ≤ SIZE_MAX)
    (hk : ArenaKept s (allocator s.mem (adjustSize (count * size)) 1).2)
    (hout : (allocator s.mem (adjustSize (count * size)) 1).1 % 2 ^ 64 = NULL ∨
      Outside s ((allocator s.mem (adjustSize (count * size)) 1).1 % 2 ^ 64)
        (adjustSize (count * size))) :
    ArenaKept s (callocImpl s count size).2.mem := by
  have hadj := adjustSize_small (count * size) hfit
  have hbytes : count * size % 2 ^ 64 = count * size := by
    unfold SIZE_MAX sizeofBlockHeader at hfit
    exact Nat.mod_eq_of_lt (by omega)
  unfold callocImpl
  simp only [hbytes, hc]
  split
  · exact fun x _ _ => rfl
  · rcases hout with h0 | hout
    · rw [h0, recordSize_null]
      exact hk
    · exact recordSize_keeps s _ _ _ _ hv hout (by rw [hadj]; omega) hk

/-- `freeImpl` through a real `free` that leaves the arena bytes leaves the arena bytes. -/
theorem freeImpl_keeps (s : MallocHelper) (data : Nat)
    (hk : ∀ releaser, s.realFree = some releaser →
      ArenaKept s (releaser s.mem (preRelease data))) :
    ArenaKept s (freeImpl s data).mem := by
  unfold freeImpl
  simp only
  split
  · exact fun x _ _ => rfl
  · split
    · exact fun x _ _ => rfl
    · split
      · rename_i releaser hr
        exact hk releaser hr
      · exact fun x _ _ => rfl

/-- `reallocImpl` of a block outside the arena, through a real `realloc` that leaves the
arena bytes and hands out null or a block outside the arena, for sizes up to
`SIZE_MAX - 16`. -/
theorem reallocImpl_real_keeps (s : MallocHelper) (p bytes : Nat)
    (reallocator : realloc_func) (hv : Valid s) (hr : s.realRealloc = some reallocator)
    (hp : p ≠ NULL) (hnot : isInBootHeap s p = false)
    (hfit : bytes + sizeofBlockHeader ≤ SIZE_MAX)
    (hk : ArenaKept s (reallocator s.mem (preRelease p) (adjustSize bytes)).2)
    (hout : (reallocator s.mem (preRelease p) (adjustSize bytes)).1 % 2 ^ 64 = NULL ∨
      Outside s ((reallocator s.mem (preRelease p) (adjustSize bytes)).1 % 2 ^ 64)
        (adjustSize bytes)) :
    ArenaKept s (reallocImpl s p bytes).2.mem := by
  have hadj := adjustSize_small bytes hfit
  simp only [reallocImpl, hp, hr, hnot, if_false, Bool.false_eq_true]
  rcases hout with h0 | hout
  · rw [h0, recordSize_null]
    exact hk
  · exact recordSize_keeps s _ _ _ _ hv hout (by rw [hadj]; omega) hk

/-- `reallocImpl` of an arena block in the resolved state, for `16 <= bytes <= SIZE_MAX - 16`:
the header, the copy and the second header all fall inside the new real block. -/
theorem reallocImpl_arena_keeps (s : MallocHelper) (p bytes : Nat)
    (allocator : malloc_func) (reallocator : realloc_func) (hv : Valid s)
    (hm : s.realMalloc = some allocator) (hr : s.realRealloc = some reallocator)
    (hp : p ≠ NULL) (hin : isInBootHeap s p = true)
    (hbig : sizeofBlockHeader ≤ bytes) (hfit : bytes + sizeofBlockHeader ≤ SIZE_MAX)
    (hk : ArenaKept s (allocator s.mem (adjustSize bytes)).2)
    (hout : (allocator s.mem (adjustSize bytes)).1 % 2 ^ 64 = NULL ∨
      Outside s ((allocator s.mem (adjustSize bytes)).1 % 2 ^ 64) (adjustSize bytes)) :
    ArenaKept s (reallocImpl s p bytes).2.mem := by
  have hadj := adjustSize_small bytes hfit
  have hmk := mallocImpl_resolved_keeps s bytes allocator hv hm hfit hk hout
  have hfst : (mallocImpl s bytes).1
      = (recordSize { s with mem := (allocator s.mem (adjustSize bytes)).2,
                             calls := s.calls ++ [RealCall.malloc (adjustSize bytes)
                               ((allocator s.mem (adjustSize bytes)).1 % 2 ^ 64)] }
          ((allocator s.mem (adjustSize bytes)).1 % 2 ^ 64) bytes).1 := by
    simp only [mallocImpl, hm]
  simp only [reallocImpl, hp, hr, hin, if_true, if_false]
  generalize allocator s.mem (adjustSize bytes) = r at hfst hout
  rw [hadj] at hout
  by_cases hraw : r.1 % 2 ^ 64 = NULL
  · have hnull : (mallocImpl s bytes).1 = NULL := by
      rw [hfst, hraw, recordSize_null]
    simp only [hnull, ne_eq, not_true_eq_false, if_false, recordSize_null]
    exact hmk
  · rw [recordSize_fst _ _ _ hraw] at hfst
    obtain ⟨ho1, ho2⟩ := hout.resolve_left hraw
    unfold sizeofBlockHeader at hbig ho1 ho2 hfst
    unfold NULL at hraw
    have hres : (mallocImpl s bytes).1 = r.1 % 2 ^ 64 + 16 := by
      rw [hfst]; unfold ptrAdd; omega
    have hne : (mallocImpl s bytes).1 ≠ NULL := by
      rw [hres]; unfold NULL; omega
    simp only [hne, ne_eq, not_false_eq_true, if_true]
    rw [hres]
    intro x hx1 hx2
    obtain ⟨_, h1, _, _⟩ := hv
    unfold BootHeapSize at h1 hx2 ho2
    unfold sizeofBlockHeader at h1
    rw [recordSize_mem_away _ _ _ _ (by omega)]
    simp only
    rw [memcpy_away _ _ _ _ _ (by split <;> omega)]
    exact hmk x hx1 (by unfold BootHeapSize; omega)

/-! ## Raw blocks handed back to the real primitives -/

theorem produced_append_malloc (l : List RealCall) (bytes result : Nat) :
    result ∈ produced (l ++ [RealCall.malloc bytes result]) := by
  induction l with
  | nil => simp [produced]
  | cons c rest ih =>
    cases c <;> simp [produced, ih]

/-- A block obtained by `mallocImpl` through the real `malloc`: the address below the
returned pointer is the raw block the real primitive produced, and `freeImpl` hands that
address to the real `free`. -/
theorem mallocImpl_real_produced (s t : MallocHelper) (bytes : Nat) (allocator : malloc_func)
    (releaser : free_func) (hm : s.realMalloc = some allocator)
    (hraw : IsRawBlock ((allocator s.mem (adjustSize bytes)).1 % 2 ^ 64))
    (hf : t.realFree = some releaser)
    (hnot : isInBootHeap t (mallocImpl s bytes).1 = false) :
    preRelease (mallocImpl s bytes).1 = (allocator s.mem (adjustSize bytes)).1 % 2 ^ 64 ∧
      (allocator s.mem (adjustSize bytes)).1 % 2 ^ 64 ∈ produced (mallocImpl s bytes).2.calls ∧
      (freeImpl t (mallocImpl s bytes).1).calls
        = t.calls ++ [RealCall.free ((allocator s.mem (adjustSize bytes)).1 % 2 ^ 64)] := by
  obtain ⟨h0, h1⟩ := hraw
  have hfst : (mallocImpl s bytes).1
      = ptrAdd ((allocator s.mem (adjustSize bytes)).1 % 2 ^ 64) sizeofBlockHeader := by
    simp only [mallocImpl, hm]
    exact recordSize_fst _ _ _ h0
  have hcalls : (mallocImpl s bytes).2.calls = s.calls ++
      [RealCall.malloc (adjustSize bytes) ((allocator s.mem (adjustSize bytes)).1 % 2 ^ 64)] := by
    simp only [mallocImpl, hm]
    rw [recordSize_calls]
  generalize (allocator s.mem (adjustSize bytes)).1 % 2 ^ 64 = raw at h0 h1 hfst hcalls ⊢
  unfold NULL at h0
  unfold sizeofBlockHeader at h1
  have hne : (mallocImpl s bytes).1 ≠ NULL := by
    rw [hfst]; unfold ptrAdd sizeofBlockHeader NULL; omega
  have hpre : preRelease (mallocImpl s bytes).1 = raw := by
    simp only [preRelease, hne, if_false]
    rw [hfst]; unfold ptrSub ptrAdd sizeofBlockHeader; omega
  refine ⟨hpre, by rw [hcalls]; exact produced_append_malloc _ _ _, ?_⟩
  simp only [freeImpl, hne, hnot, hf, if_false, Bool.false_eq_true, hpre]

/-! ## Stores that reach the instance -/

/-- The second header of the arena branch misses the members when the real block is far
from the instance: the cursor is the same after the call. -/
theorem far_block_keeps_cursor :
    (Obj.reallocImpl Obj.farProcess 0x10010 0).map Prod.fst = some 0x200020 ∧
      (Obj.reallocImpl Obj.farProcess 0x10010 0).map (fun r => Obj.bootCursor r.2)
        = some 0x10030 := by
  decide

theorem available_exact (cursor heap : Nat)
    (h2 : heap ≤ cursor) (h3 : cursor ≤ heap + BootHeapSize) :
    toSizeT ((BootHeapSize : Int) - ptrDiff cursor heap) = BootHeapSize - (cursor - heap) := by
  unfold BootHeapSize at h3 ⊢
  have hd : (cursor + (2 ^ 64 - heap % 2 ^ 64)) % 2 ^ 64 = cursor - heap := by omega
  unfold toSizeT ptrDiff
  simp only [hd]
  have hlt : cursor - heap < 2 ^ 63 := by omega
  simp only [hlt, if_true]
  omega

/-- A word that ends at or below `data` is not touched by the header written at `data`. -/
theorem readWord_recordSize_below (st : Obj.Process) (data bytes a : Nat)
    (h1 : a + 8 ≤ data) (h2 : data + sizeofBlockHeader ≤ 2 ^ 64) :
    readWord (Obj.recordSize st data bytes).2.mem a = readWord st.mem a := by
  unfold sizeofBlockHeader at h2
  have hd : data ≠ NULL := by unfold NULL; omega
  simp only [Obj.recordSize, hd, if_false]
  rw [readWord_writeWord_away _ _ _ _ (by unfold ptrAdd offSize; omega)
      (by unfold ptrAdd offSize; omega),
    readWord_writeWord_away _ _ _ _ (by unfold ptrAdd offMagic; omega)
      (by unfold ptrAdd offMagic; omega)]

theorem recordSize_self (st : Obj.Process) (data bytes : Nat) :
    (Obj.recordSize st data bytes).2.self = st.self := by
  unfold Obj.recordSize
  split <;> rfl

/-- The members after the bump allocation: the cursor holds the value stored, the other
members and the place of the instance are as before. -/
theorem bump_fields (st st' : Obj.Process) (v c bytes : Nat)
    (hst : st' = (Obj.recordSize (Obj.setBootCursor st v) c bytes).2)
    (h1 : st.self + 48 ≤ c) (h2 : c + 16 ≤ 2 ^ 64) :
    st'.self = st.self ∧ Obj.bootCursor st' = v % 2 ^ 64 ∧
      Obj.realCalloc st' = Obj.realCalloc st ∧ Obj.realFree st' = Obj.realFree st ∧
      Obj.realMalloc st' = Obj.realMalloc st ∧ Obj.realRealloc st' = Obj.realRealloc st := by
  subst hst
  have hself : (Obj.recordSize (Obj.setBootCursor st v) c bytes).2.self = st.self := by
    rw [recordSize_self]; rfl
  have hmem : (Obj.setBootCursor st v).mem = writeWord st.mem (ptrAdd st.self 0) v := rfl
  have key : ∀ off, off + 8 ≤ 48 →
      readWord (Obj.recordSize (Obj.setBootCursor st v) c bytes).2.mem (ptrAdd st.self off)
        = readWord (writeWord st.mem (ptrAdd st.self 0) v) (ptrAdd st.self off) :=
    fun off hoff => by
      rw [readWord_recordSize_below _ _ _ _ (by unfold ptrAdd; omega)
        (by unfold sizeofBlockHeader; omega), hmem]
  have away : ∀ off, 8 ≤ off → off + 8 ≤ 48 →
      readWord (writeWord st.mem (ptrAdd st.self 0) v) (ptrAdd st.self off)
        = readWord st.mem (ptrAdd st.self off) :=
    fun off hlo hoff => readWord_writeWord_away _ _ _ _ (by unfold ptrAdd; omega)
      (by unfold ptrAdd; omega)
  refine ⟨hself, ?_, ?_, ?_, ?_, ?_⟩
  · unfold Obj.bootCursor Obj.offBootCursor
    rw [hself, key 0 (by omega), readWord_writeWord]
  · unfold Obj.realCalloc Obj.offRealCalloc
    rw [hself, key 16 (by omega), away 16 (by omega) (by omega)]
  · unfold Obj.realFree Obj.offRealFree
    rw [hself, key 24 (by omega), away 24 (by omega) (by omega)]
  · unfold Obj.realMalloc Obj.offRealMalloc
    rw [hself, key 32 (by omega), away 32 (by omega) (by omega)]
  · unfold Obj.realRealloc Obj.offRealRealloc
    rw [hself, key 40 (by omega), away 40 (by omega) (by omega)]

/-- While no reference is present, `mallocImpl` has a defined result, the references stay
null, the cursor stays within the arena and does not move back. -/
theorem mallocImpl_noneResolved (st : Obj.Process) (bytes : Nat) (h : Obj.NoneResolved st) :
    ∃ r, Obj.mallocImpl st bytes = some r ∧ Obj.NoneResolved r.2 ∧ r.2.self = st.self ∧
      Obj.bootCursor st ≤ Obj.bootCursor r.2 := by
  have hkeep := h
  obtain ⟨h0, h1, hc, hf, hm, hr, h2, h3⟩ := h
  unfold Obj.offBootHeap BootHeapSize sizeofBlockHeader at h1
  have hheap : Obj.bootHeap st = st.self + 48 := by
    unfold Obj.bootHeap ptrAdd Obj.offBootHeap; omega
  have hav := available_exact (Obj.bootCursor st) (Obj.bootHeap st) h2 h3
  have hnot : ¬ (Obj.realMalloc st ≠ NULL) := by rw [hm]; exact fun hne => hne rfl
  simp only [Obj.mallocImpl, hnot, if_false, hav]
  split
  · exact ⟨(NULL, st), rfl, hkeep, rfl, Nat.le_refl _⟩
  · rename_i hfit
    rw [hheap] at h2 h3 hfit
    unfold BootHeapSize at h3 hfit
    obtain ⟨hself, hcur, hc', hf', hm', hr'⟩ :=
      bump_fields st _ (ptrAdd (Obj.bootCursor st) (adjustSize bytes)) (Obj.bootCursor st)
        bytes rfl h2 (by omega)
    have hnew : ptrAdd (Obj.bootCursor st) (adjustSize bytes) % 2 ^ 64
        = Obj.bootCursor st + adjustSize bytes := by
      unfold ptrAdd; omega
    rw [hnew] at hcur
    refine ⟨_, rfl, ⟨by rw [hself]; exact h0, ?_, by rw [hc']; exact hc, by rw [hf']; exact hf,
      by rw [hm']; exact hm, by rw [hr']; exact hr, ?_, ?_⟩, hself, by rw [hcur]; omega⟩
    · rw [hself]
      unfold Obj.offBootHeap BootHeapSize sizeofBlockHeader
      exact h1
    · rw [hcur]
      unfold Obj.bootHeap
      rw [hself]
      unfold ptrAdd Obj.offBootHeap
      omega
    · rw [hcur]
      unfold Obj.bootHeap
      rw [hself]
      unfold ptrAdd Obj.offBootHeap BootHeapSize
      omega

/-- While no reference is present every entry point has a defined result and keeps the
cursor within the arena, never moving it back. -/
theorem step_noneResolved (st : Obj.Process) (op : Op) (h : Obj.NoneResolved st) :
    ∃ st', Obj.step st op = some st' ∧ Obj.NoneResolved st' ∧ st'.self = st.self ∧
      Obj.bootCursor st ≤ Obj.bootCursor st' := by
  have hstay : ∃ st', some st = some st' ∧ Obj.NoneResolved st' ∧ st'.self = st.self ∧
      Obj.bootCursor st ≤ Obj.bootCursor st' := ⟨st, rfl, h, rfl, Nat.le_refl _⟩
  have hmal : ∀ bytes, ∃ st', (Obj.mallocImpl st bytes).map Prod.snd = some st' ∧
      Obj.NoneResolved st' ∧ st'.self = st.self ∧
      Obj.bootCursor st ≤ Obj.bootCursor st' := by
    intro bytes
    obtain ⟨r, hr, hn, hs, hle⟩ := mallocImpl_noneResolved st bytes h
    exact ⟨r.2, by rw [hr]; rfl, hn, hs, hle⟩
  obtain ⟨_, _, hc, hf, _, hr, _, _⟩ := h
  cases op with
  | calloc count size =>
    simp only [Obj.step, Obj.callocImpl, hc, if_true]
    split
    · exact hstay
    · exact hstay
  | free data =>
    have hnot : ¬ (Obj.realFree st ≠ NULL) := by rw [hf]; exact fun hne => hne rfl
    simp only [Obj.step, Obj.freeImpl, hnot, if_false]
    split
    · exact hstay
    · split
      · exact hstay
      · exact hstay
  | malloc bytes => exact hmal bytes
  | realloc data bytes =>
    simp only [Obj.step, Obj.reallocImpl, hr, if_true]
    split
    · exact hmal bytes
    · exact hstay

/-- In the instance kept in memory, the cursor is bounded and monotone in every state
reached by entry-point calls while no reference is present (before resolution, or after a
resolution that failed): each call has a defined result, `bootHeap <= bootCursor <=
bootHeap + BootHeapSize` holds after it, and the cursor is at least where it was. -/
theorem run_noneResolved (ops : List Op) (st : Obj.Process) (h : Obj.NoneResolved st) :
    ∃ st', Obj.run st ops = some st' ∧ Obj.NoneResolved st' ∧ st'.self = st.self ∧
      Obj.bootCursor st ≤ Obj.bootCursor st' := by
  induction ops generalizing st with
  | nil => exact ⟨st, rfl, h, rfl, Nat.le_refl _⟩
  | cons op rest ih =>
    obtain ⟨st1, h1, hn1, hs1, hle1⟩ := step_noneResolved st op h
    obtain ⟨st2, h2, hn2, hs2, hle2⟩ := ih st1 hn1
    exact ⟨st2, by simp only [Obj.run, h1, Option.some_bind, h2], hn2, hs2.trans hs1,
      Nat.le_trans hle1 hle2⟩

theorem run_noneResolved_example :
    Obj.NoneResolved Obj.failedProcess ∧
      (Obj.run Obj.failedProcess
        [Op.malloc 4000, Op.free 0x10010, Op.malloc 100, Op.malloc 8]).map Obj.bootCursor
        = some 0x10FC8 ∧
      ∃ st', Obj.run Obj.failedProcess
          [Op.malloc 4000, Op.free 0x10010, Op.malloc 100, Op.malloc 8] = some st' ∧
        Obj.NoneResolved st' :=
  ⟨by decide, by decide,
    (run_noneResolved [Op.malloc 4000, Op.free 0x10010, Op.malloc 100, Op.malloc 8]
      Obj.failedProcess (by decide)).imp (fun _ h => ⟨h.1, h.2.1⟩)⟩

end MallocShim
